import Mathlib

/-!
# Verification of the random-flag simulation cores

Shallow embedding of the two game-simulation cores of the repository:

* the elimination game (src/unnamed/part_001, with an earlier revision of the
  same page in src/unnamed/part_002): a circular arena with a rotating angular
  gap, per-frame motion integration, gap-exit detection by bisection, wall
  bounce, a safety clamp, pairwise elastic collision, fall physics and the
  round-end check;
* the sword-combat game (src/lib/game/GameEngine.ts, src/unnamed/part_004 =
  collision.ts, src/unnamed/part_005 = Player.ts): players with rotating
  swords, swept segment-vs-circle hit detection, damage and hit cooldown.

Numbers are modelled exactly: `ℝ` where the source manipulates angles
(π, `Math.atan2`, `Math.cos`/`Math.sin`) and square roots, `ℚ` for the
purely arithmetic fall physics.  Rendering-space outputs (pixel coordinates
of the exit animation, stacked-row layout, DOM measurements) are not part of
the simulation state the claims speak about and are omitted; each omission is
noted at the definition it concerns.
-/

namespace RandomFlag

/-- Truncation toward zero on `ℝ`, the integer quotient implied by the source
language's `%` operator. -/
noncomputable def rtrunc (x : ℝ) : ℤ := if 0 ≤ x then ⌊x⌋ else ⌈x⌉

/-- The source language's remainder `a % b`: `a - b * trunc (a / b)`, which
takes the sign of `a`. -/
noncomputable def jsRem (a b : ℝ) : ℝ := a - b * rtrunc (a / b)

/-- Result of the two normalization loops of src/unnamed/part_001 (lines
86-87): `while (diff > π) diff -= 2π` runs exactly `⌈(x-π)/(2π)⌉` times when
`x > π`, and `while (diff < -π) diff += 2π` runs exactly `⌈(-π-x)/(2π)⌉`
times when `x < -π`; otherwise the value is untouched. -/
noncomputable def normPi (x : ℝ) : ℝ :=
  if Real.pi < x then x - 2 * Real.pi * ⌈(x - Real.pi) / (2 * Real.pi)⌉
  else if x < -Real.pi then x + 2 * Real.pi * ⌈(-Real.pi - x) / (2 * Real.pi)⌉
  else x

theorem normPi_mem (x : ℝ) : -Real.pi ≤ normPi x ∧ normPi x ≤ Real.pi := by
  have hπ : (0 : ℝ) < Real.pi := Real.pi_pos
  have h2π : (0 : ℝ) < 2 * Real.pi := by linarith
  unfold normPi
  split
  · next h =>
    set q : ℤ := ⌈(x - Real.pi) / (2 * Real.pi)⌉ with hq
    have h1 : (x - Real.pi) / (2 * Real.pi) ≤ (q : ℝ) := Int.le_ceil _
    have h2 : (q : ℝ) < (x - Real.pi) / (2 * Real.pi) + 1 := Int.ceil_lt_add_one _
    have e : (x - Real.pi) / (2 * Real.pi) * (2 * Real.pi) = x - Real.pi :=
      div_mul_cancel₀ _ (ne_of_gt h2π)
    have h1' : x - Real.pi ≤ (q : ℝ) * (2 * Real.pi) := by
      have := mul_le_mul_of_nonneg_right h1 h2π.le
      linarith
    have h2' : (q : ℝ) * (2 * Real.pi) < x - Real.pi + 2 * Real.pi := by
      have := mul_lt_mul_of_pos_right h2 h2π
      nlinarith
    constructor <;> nlinarith
  · next h =>
    split
    · next h' =>
      set q : ℤ := ⌈(-Real.pi - x) / (2 * Real.pi)⌉ with hq
      have h1 : (-Real.pi - x) / (2 * Real.pi) ≤ (q : ℝ) := Int.le_ceil _
      have h2 : (q : ℝ) < (-Real.pi - x) / (2 * Real.pi) + 1 := Int.ceil_lt_add_one _
      have e : (-Real.pi - x) / (2 * Real.pi) * (2 * Real.pi) = -Real.pi - x :=
        div_mul_cancel₀ _ (ne_of_gt h2π)
      have h1' : -Real.pi - x ≤ (q : ℝ) * (2 * Real.pi) := by
        have := mul_le_mul_of_nonneg_right h1 h2π.le
        linarith
      have h2' : (q : ℝ) * (2 * Real.pi) < -Real.pi - x + 2 * Real.pi := by
        have := mul_lt_mul_of_pos_right h2 h2π
        nlinarith
      constructor <;> nlinarith
    · next h' => constructor <;> linarith [not_lt.mp h, not_lt.mp h']

theorem normPi_sub_int (x : ℝ) : ∃ k : ℤ, normPi x = x - 2 * Real.pi * k := by
  unfold normPi
  split
  · exact ⟨_, rfl⟩
  · split
    · refine ⟨-⌈(-Real.pi - x) / (2 * Real.pi)⌉, ?_⟩
      push_cast
      ring
    · exact ⟨0, by norm_num⟩

namespace Part001

/-- `isInGap` of src/unnamed/part_001 (lines 71-91).  The SVG circle is drawn
with its gap at the top, so the gap's center angle is `gapRotation - π/2`; the
difference to the queried angle is normalized into `[-π, π]` by the two while
loops and compared with half the gap width in radians. -/
noncomputable def isInGap (angle gapRotation gapAngleDegrees : ℝ) : Prop :=
  |normPi (angle - (gapRotation - Real.pi / 2))| ≤ gapAngleDegrees * Real.pi / 180 / 2

noncomputable instance (a g d : ℝ) : Decidable (isInGap a g d) :=
  inferInstanceAs (Decidable (_ ≤ _))

end Part001

namespace Part002

/-- `isInGap` of src/unnamed/part_002 (lines 61-69): the relative angle is
reduced by `((x % 2π) + 2π) % 2π` into `[0, 2π)` and shifted into `(-π, π]`
before the comparison with half the gap width; here the second argument is
the gap's center angle itself. -/
noncomputable def isInGap (angle gapRotation gapAngleDegrees : ℝ) : Prop :=
  let gapAngle := gapAngleDegrees * Real.pi / 180
  let relativeAngle := angle - gapRotation
  let m := jsRem (jsRem relativeAngle (2 * Real.pi) + 2 * Real.pi) (2 * Real.pi)
  let normalized := if Real.pi < m then m - 2 * Real.pi else m
  |normalized| ≤ gapAngle / 2

end Part002

theorem jsRem_sub_int (a b : ℝ) : ∃ k : ℤ, jsRem a b = a - b * k := ⟨_, rfl⟩

theorem jsRem_nonneg_mem (a b : ℝ) (hb : 0 < b) (ha : 0 ≤ a) :
    0 ≤ jsRem a b ∧ jsRem a b < b := by
  have hdiv : 0 ≤ a / b := div_nonneg ha hb.le
  have : rtrunc (a / b) = ⌊a / b⌋ := by unfold rtrunc; rw [if_pos hdiv]
  unfold jsRem
  rw [this]
  have h1 : (⌊a / b⌋ : ℝ) ≤ a / b := Int.floor_le _
  have h2 : a / b < ⌊a / b⌋ + 1 := Int.lt_floor_add_one _
  have e : a / b * b = a := div_mul_cancel₀ _ (ne_of_gt hb)
  constructor
  · nlinarith [mul_le_mul_of_nonneg_right h1 hb.le]
  · nlinarith [mul_lt_mul_of_pos_right h2 hb]

theorem jsRem_abs_lt (a b : ℝ) (hb : 0 < b) : |jsRem a b| < b := by
  rcases le_or_lt 0 a with ha | ha
  · have := jsRem_nonneg_mem a b hb ha
    rw [abs_of_nonneg this.1]
    exact this.2
  · have hdiv : ¬ 0 ≤ a / b := by
      rw [not_le]
      exact div_neg_of_neg_of_pos ha hb
    have ht : rtrunc (a / b) = ⌈a / b⌉ := by unfold rtrunc; rw [if_neg hdiv]
    unfold jsRem
    rw [ht]
    have h1 : a / b ≤ (⌈a / b⌉ : ℝ) := Int.le_ceil _
    have h2 : (⌈a / b⌉ : ℝ) < a / b + 1 := Int.ceil_lt_add_one _
    have e : a / b * b = a := div_mul_cancel₀ _ (ne_of_gt hb)
    rw [abs_lt]
    constructor
    · nlinarith [mul_lt_mul_of_pos_right h2 hb]
    · nlinarith [mul_le_mul_of_nonneg_right h1 hb.le]

/-- A value `y ≡ x (mod 2π)` lying in `[-π, π]` is within `h < π` of zero iff
some representative `x - 2πk` is within `h` of zero: `|y|` is the shortest
angular distance. -/
theorem wrapped_abs_le_iff (x y h : ℝ) (k0 : ℤ) (hy : y = x - 2 * Real.pi * k0)
    (hlo : -Real.pi ≤ y) (hhi : y ≤ Real.pi) (hh : h < Real.pi) :
    |y| ≤ h ↔ ∃ k : ℤ, |x - 2 * Real.pi * k| ≤ h := by
  have hπ : (0 : ℝ) < Real.pi := Real.pi_pos
  constructor
  · intro hyh
    exact ⟨k0, by rw [← hy]; exact hyh⟩
  · rintro ⟨k, hk⟩
    have hdiff : y - (x - 2 * Real.pi * k) = 2 * Real.pi * (k - k0) := by
      rw [hy]; ring
    have habs : |y - (x - 2 * Real.pi * k)| < 2 * Real.pi := by
      have h1 : |y| ≤ Real.pi := abs_le.mpr ⟨hlo, hhi⟩
      calc |y - (x - 2 * Real.pi * k)| ≤ |y| + |x - 2 * Real.pi * k| := abs_sub _ _
        _ < 2 * Real.pi := by linarith [abs_le.mp hk]
    have hk0 : k = k0 := by
      rw [hdiff] at habs
      by_contra hne
      have : (1 : ℝ) ≤ |(k - k0 : ℤ)| := by
        exact_mod_cast Int.one_le_abs (sub_ne_zero.mpr hne)
      rw [abs_mul] at habs
      have h2 : |(2 * Real.pi)| = 2 * Real.pi := abs_of_pos (by linarith)
      push_cast at this
      rw [h2] at habs
      nlinarith
    rw [hk0] at hk
    rw [hy]
    exact hk

theorem half_width_lt_pi {w : ℝ} (h1 : w < 360) : w * Real.pi / 180 / 2 < Real.pi := by
  nlinarith [Real.pi_pos]

theorem Part002.isInGap_iff_dist (a c w : ℝ) (h1 : w < 360) :
    Part002.isInGap a c w ↔ ∃ k : ℤ, |a - c - 2 * Real.pi * k| ≤ w * Real.pi / 180 / 2 := by
  have hπ : (0 : ℝ) < Real.pi := Real.pi_pos
  have h2π : (0 : ℝ) < 2 * Real.pi := by linarith
  obtain ⟨k1, hk1⟩ := jsRem_sub_int (a - c) (2 * Real.pi)
  have hv := jsRem_abs_lt (a - c) (2 * Real.pi) h2π
  set v := jsRem (a - c) (2 * Real.pi) with hvdef
  have hu : 0 ≤ v + 2 * Real.pi := by
    have := (abs_lt.mp hv).1
    linarith
  obtain ⟨k2, hk2⟩ := jsRem_sub_int (v + 2 * Real.pi) (2 * Real.pi)
  have hm := jsRem_nonneg_mem (v + 2 * Real.pi) (2 * Real.pi) h2π hu
  set m := jsRem (v + 2 * Real.pi) (2 * Real.pi) with hmdef
  set y := if Real.pi < m then m - 2 * Real.pi else m with hydef
  have hy : ∃ k : ℤ, y = (a - c) - 2 * Real.pi * k := by
    rcases lt_or_le Real.pi m with hc | hc
    · refine ⟨k1 + k2, ?_⟩
      rw [hydef, if_pos hc, hk2, hk1]
      push_cast
      ring
    · refine ⟨k1 + k2 - 1, ?_⟩
      rw [hydef, if_neg (not_lt.mpr hc), hk2, hk1]
      push_cast
      ring
  have hybounds : -Real.pi ≤ y ∧ y ≤ Real.pi := by
    rcases lt_or_le Real.pi m with hc | hc
    · rw [hydef, if_pos hc]
      constructor <;> linarith [hm.1, hm.2]
    · rw [hydef, if_neg (not_lt.mpr hc)]
      constructor <;> linarith [hm.1]
  obtain ⟨k0, hk0⟩ := hy
  have hmain := wrapped_abs_le_iff (a - c) y (w * Real.pi / 180 / 2) k0 hk0
    hybounds.1 hybounds.2 (half_width_lt_pi h1)
  unfold Part002.isInGap
  simp only [← hvdef, ← hmdef, ← hydef]
  constructor
  · intro h
    exact hmain.mp h
  · intro h
    exact hmain.mpr h

theorem Part001.isInGap_iff_dist_shifted (a c w : ℝ) (h1 : w < 360) :
    Part001.isInGap a c w ↔
      ∃ k : ℤ, |a - (c - Real.pi / 2) - 2 * Real.pi * k| ≤ w * Real.pi / 180 / 2 := by
  obtain ⟨k0, hk0⟩ := normPi_sub_int (a - (c - Real.pi / 2))
  have hb := normPi_mem (a - (c - Real.pi / 2))
  exact wrapped_abs_le_iff _ _ _ k0 hk0 hb.1 hb.2 (half_width_lt_pi h1)

theorem exists_shift_left (x h : ℝ) (j : ℤ) :
    (∃ k : ℤ, |x + 2 * Real.pi * j - 2 * Real.pi * k| ≤ h) ↔
      ∃ k : ℤ, |x - 2 * Real.pi * k| ≤ h := by
  constructor
  · rintro ⟨k, hk⟩
    refine ⟨k - j, ?_⟩
    have e : x - 2 * Real.pi * (k - j : ℤ) = x + 2 * Real.pi * j - 2 * Real.pi * k := by
      push_cast
      ring
    rw [e]
    exact hk
  · rintro ⟨k, hk⟩
    refine ⟨k + j, ?_⟩
    have e : x + 2 * Real.pi * j - 2 * Real.pi * (k + j : ℤ) = x - 2 * Real.pi * k := by
      push_cast
      ring
    rw [e]
    exact hk

/-- C1 (amended): `part_002`'s `isInGap(a, c, w)` is, for `0 < w < 360`, true
iff the shortest angular distance between `a` and `c` (some representative
`a - c - 2πk` of the difference) is at most `(w·π/180)/2`, and the result is
invariant under shifting `a` or `c` by whole turns.  `part_001`'s `isInGap`
satisfies the same property with gap center `c - π/2` instead of `c` (its
second argument is the rotation applied to an SVG whose gap is drawn at the
top), and it has the same whole-turn invariance. -/
theorem isInGap_amended :
    (∀ a c w : ℝ, 0 < w → w < 360 →
      (Part002.isInGap a c w ↔
        ∃ k : ℤ, |a - c - 2 * Real.pi * k| ≤ w * Real.pi / 180 / 2)) ∧
    (∀ a c w : ℝ, 0 < w → w < 360 →
      (Part001.isInGap a c w ↔
        ∃ k : ℤ, |a - (c - Real.pi / 2) - 2 * Real.pi * k| ≤ w * Real.pi / 180 / 2)) ∧
    (∀ a c w : ℝ, ∀ j : ℤ, 0 < w → w < 360 →
      (Part002.isInGap (a + 2 * Real.pi * j) c w ↔ Part002.isInGap a c w) ∧
      (Part002.isInGap a (c + 2 * Real.pi * j) w ↔ Part002.isInGap a c w) ∧
      (Part001.isInGap (a + 2 * Real.pi * j) c w ↔ Part001.isInGap a c w) ∧
      (Part001.isInGap a (c + 2 * Real.pi * j) w ↔ Part001.isInGap a c w)) := by
  refine ⟨fun a c w _ h1 => Part002.isInGap_iff_dist a c w h1,
          fun a c w _ h1 => Part001.isInGap_iff_dist_shifted a c w h1,
          fun a c w j _ h1 => ⟨?_, ?_, ?_, ?_⟩⟩
  · rw [Part002.isInGap_iff_dist _ _ _ h1, Part002.isInGap_iff_dist _ _ _ h1]
    have e : ∀ k : ℤ, a + 2 * Real.pi * j - c - 2 * Real.pi * k =
        (a - c) + 2 * Real.pi * j - 2 * Real.pi * k := by intro k; ring
    simp only [e]
    exact exists_shift_left (a - c) _ j
  · rw [Part002.isInGap_iff_dist _ _ _ h1, Part002.isInGap_iff_dist _ _ _ h1]
    have e : ∀ k : ℤ, a - (c + 2 * Real.pi * j) - 2 * Real.pi * k =
        (a - c) + 2 * Real.pi * (-j : ℤ) - 2 * Real.pi * k := by
      intro k; push_cast; ring
    simp only [e]
    exact exists_shift_left (a - c) _ (-j)
  · rw [Part001.isInGap_iff_dist_shifted _ _ _ h1, Part001.isInGap_iff_dist_shifted _ _ _ h1]
    have e : ∀ k : ℤ, a + 2 * Real.pi * j - (c - Real.pi / 2) - 2 * Real.pi * k =
        (a - (c - Real.pi / 2)) + 2 * Real.pi * j - 2 * Real.pi * k := by intro k; ring
    simp only [e]
    exact exists_shift_left (a - (c - Real.pi / 2)) _ j
  · rw [Part001.isInGap_iff_dist_shifted _ _ _ h1, Part001.isInGap_iff_dist_shifted _ _ _ h1]
    have e : ∀ k : ℤ, a - (c + 2 * Real.pi * j - Real.pi / 2) - 2 * Real.pi * k =
        (a - (c - Real.pi / 2)) + 2 * Real.pi * (-j : ℤ) - 2 * Real.pi * k := by
      intro k; push_cast; ring
    simp only [e]
    exact exists_shift_left (a - (c - Real.pi / 2)) _ (-j)

/-- C1 (amended) at a concrete input: angle 0 lies in a 90°-wide gap centered
at angle 0 under `part_002`'s convention. -/
theorem isInGap_amended_witness : Part002.isInGap 0 0 90 := by
  refine (isInGap_amended.1 0 0 90 (by norm_num) (by norm_num)).mpr ⟨0, ?_⟩
  push_cast
  simp only [mul_zero, sub_zero, abs_zero]
  positivity

theorem normPi_pi_div_two : normPi (Real.pi / 2) = Real.pi / 2 := by
  have hπ : (0 : ℝ) < Real.pi := Real.pi_pos
  unfold normPi
  rw [if_neg (by linarith), if_neg (by linarith)]

/-- C1 (counterexample): `part_001`'s `isInGap(0, 0, 90)` is false although
the shortest angular distance between angle 0 and gap rotation 0 is 0, which
is at most `(90·π/180)/2`; the claim's biconditional fails for this
implementation because its gap center is offset by `-π/2`. -/
theorem isInGap_claim_counterexample :
    ¬ (Part001.isInGap 0 0 90 ↔
        ∃ k : ℤ, |(0 : ℝ) - 0 - 2 * Real.pi * k| ≤ 90 * Real.pi / 180 / 2) := by
  have hπ : (0 : ℝ) < Real.pi := Real.pi_pos
  intro h
  have hrhs : ∃ k : ℤ, |(0 : ℝ) - 0 - 2 * Real.pi * k| ≤ 90 * Real.pi / 180 / 2 := by
    refine ⟨0, ?_⟩
    push_cast
    simp only [mul_zero, sub_zero, zero_sub, neg_zero, abs_zero]
    positivity
  have hlhs : Part001.isInGap 0 0 90 := h.mpr hrhs
  unfold Part001.isInGap at hlhs
  have e : (0 : ℝ) - (0 - Real.pi / 2) = Real.pi / 2 := by ring
  rw [e, normPi_pi_div_two, abs_of_pos (by linarith)] at hlhs
  nlinarith

/-! ## Elimination-game step (src/unnamed/part_001, game loop lines 408-754)

The per-frame update of an `active` flag: motion integration, boundary
crossing with bisection, gap-exit detection, wall bounce, safety clamp
(lines 408-684), followed by the pairwise collision pass (lines 686-754) and
the round-end check (lines 807-823).  The flag record keeps the logical-space
simulation fields; the pixel-space exit-animation outputs (`exitX`, `exitY`,
`exitVelocityX/Y`, `exitStartTime`, computed from DOM container measurements)
and the stacked-row layout are rendering concerns and are omitted. -/

/-- `Math.atan2 y x`, the angle of the point `(x, y)` in `(-π, π]`. -/
noncomputable def atan2 (y x : ℝ) : ℝ := Complex.arg ⟨x, y⟩

/-- `BASE_SPEED` of src/unnamed/part_001 line 21. -/
noncomputable def BASE_SPEED : ℝ := 0.00035

/-- The visual circle radius, `const radius = 0.42` (line 124). -/
noncomputable def radius : ℝ := 0.42

/-- One elimination-game flag (interface `BouncingFlag`, lines 36-60),
restricted to the logical-space simulation fields. -/
structure Flag where
  code : String
  x : ℝ
  y : ℝ
  vx : ℝ
  vy : ℝ
  eliminated : Bool
  eliminatedOrder : Option ℕ
  exiting : Bool
  falling : Bool
  stacked : Bool
deriving Inhabited

/-- The loop's elimination bookkeeping: `eliminatedOrderRef`,
`eliminatedSetRef` and the appended `eliminatedList` (country codes). -/
structure ElimState where
  counter : ℕ
  seen : List String
  elimList : List String

/-- The per-step configuration: frame delta, gap-rotation state and the flag
size in logical units (`flagSizeLogical`, line 401). -/
structure StepCfg where
  dt : ℝ
  gapRotationEnabled : Bool
  gapRotation : ℝ
  gapSize : ℝ
  flagSizeLogical : ℝ

/-- `maxFlagCenterDistance = Math.max(0.05, radius - flagRadiusLogical)`
(line 406). -/
noncomputable def maxFCD (cfg : StepCfg) : ℝ := max 0.05 (radius - cfg.flagSizeLogical / 2)

/-- One iteration of the 15-round bisection loop (lines 447-460 and its two
clones): state `(tLow, tHigh, t, done)`, where `done` models the `break` on
`|testDist - target| < 0.0001`. -/
noncomputable def bisectStep (px py dx dy target : ℝ)
    (s : ℝ × ℝ × ℝ × Bool) : ℝ × ℝ × ℝ × Bool :=
  if s.2.2.2 then s else
  let tLow := s.1
  let tHigh := s.2.1
  let t := s.2.2.1
  let testX := px + t * dx
  let testY := py + t * dy
  let testDist := Real.sqrt (testX ^ 2 + testY ^ 2)
  if |testDist - target| < 0.0001 then (tLow, tHigh, t, true)
  else if testDist < target then (t, tHigh, (t + tHigh) / 2, false)
  else (tLow, t, (tLow + t) / 2, false)

/-- The interpolation parameter the 15-iteration bisection returns, starting
from `tLow = 0`, `tHigh = 1`, `t = 0.5`. -/
noncomputable def bisectT (px py dx dy target : ℝ) : ℝ :=
  ((bisectStep px py dx dy target)^[15] (0, 1, 0.5, false)).2.2.1

/-- The guarded elimination bookkeeping (lines 472-476 and 594-598): bump the
order counter, add to the seen set and append to the eliminated list only
when the flag's country code has not been seen. -/
def recordElim (st : ElimState) (code : String) : ElimState :=
  if st.seen.contains code then st
  else ⟨st.counter + 1, code :: st.seen, st.elimList ++ [code]⟩

/-- The exit-branch result (lines 495-507 and 618-630): the flag is marked
`eliminated` and `exiting` with `eliminatedOrder` set to the current counter,
its logical position set to the crossing point, velocity untouched. -/
def markExit (st : ElimState) (f : Flag) (px py : ℝ) : Flag × ElimState :=
  let st' := recordElim st f.code
  ({ f with eliminated := true, eliminatedOrder := some st'.counter,
            exiting := true, x := px, y := py }, st')

/-- One frame of the active-flag update (lines 408-684).  Eliminated or
falling flags are returned untouched (line 409).  The position is integrated,
then: the radius-crossing branch (435-535) bisects the crossing point,
exits through the gap or clamps to `maxFlagCenterDistance`; otherwise the
max-distance-crossing branch (536-582) bisects and clamps unless the crossing
point is inside the gap; then the gap-area check (584-631) starts the exit,
the `dist > radius` branch (635-659) clamps and reflects, and the safety
clamp (663-681) clamps and reflects only outward motion.  The dead local
`moveDistance` (line 416) and the unused `eliminationThreshold` (line 591)
are not modelled. -/
noncomputable def stepFlag (cfg : StepCfg) (st : ElimState) (f : Flag) : Flag × ElimState :=
  if f.eliminated || f.falling then (f, st) else
  let prevX := f.x
  let prevY := f.y
  let prevDist := Real.sqrt (prevX ^ 2 + prevY ^ 2)
  let x0 := f.x + f.vx * cfg.dt * BASE_SPEED * 60
  let y0 := f.y + f.vy * cfg.dt * BASE_SPEED * 60
  let dist0 := Real.sqrt (x0 ^ 2 + y0 ^ 2)
  let currentGapRotation := if cfg.gapRotationEnabled then cfg.gapRotation else 0
  let afterBoundary : Sum (Flag × ElimState) (ℝ × ℝ) :=
    if prevDist ≤ radius ∧ radius < dist0 then
      let dx := x0 - prevX
      let dy := y0 - prevY
      if 0 < Real.sqrt (dx ^ 2 + dy ^ 2) then
        let t := bisectT prevX prevY dx dy radius
        let intersectX := prevX + t * dx
        let intersectY := prevY + t * dy
        let intersectDist := Real.sqrt (intersectX ^ 2 + intersectY ^ 2)
        if Part001.isInGap (atan2 intersectY intersectX) currentGapRotation cfg.gapSize ∧
            maxFCD cfg * 0.98 ≤ intersectDist then
          Sum.inl (markExit st f intersectX intersectY)
        else if ¬ Part001.isInGap (atan2 intersectY intersectX) currentGapRotation
            cfg.gapSize then
          let t2 := bisectT prevX prevY dx dy (maxFCD cfg)
          Sum.inr (prevX + t2 * dx, prevY + t2 * dy)
        else Sum.inr (x0, y0)
      else Sum.inr (x0, y0)
    else if prevDist ≤ maxFCD cfg ∧ maxFCD cfg < dist0 then
      let dx := x0 - prevX
      let dy := y0 - prevY
      if 0 < Real.sqrt (dx ^ 2 + dy ^ 2) then
        let t := bisectT prevX prevY dx dy (maxFCD cfg)
        let intersectX := prevX + t * dx
        let intersectY := prevY + t * dy
        if Part001.isInGap (atan2 intersectY intersectX) currentGapRotation cfg.gapSize then
          Sum.inr (x0, y0)
        else Sum.inr (intersectX, intersectY)
      else Sum.inr (x0, y0)
    else Sum.inr (x0, y0)
  match afterBoundary with
  | Sum.inl r => r
  | Sum.inr (x, y) =>
    let dist := Real.sqrt (x ^ 2 + y ^ 2)
    if Part001.isInGap (atan2 y x) currentGapRotation cfg.gapSize ∧
        maxFCD cfg * 0.98 ≤ dist then
      markExit st f x y
    else if radius < dist then
      let nx := x / dist
      let ny := y / dist
      let dot := f.vx * nx + f.vy * ny
      ({ f with x := nx * maxFCD cfg, y := ny * maxFCD cfg,
                vx := f.vx - 2 * dot * nx, vy := f.vy - 2 * dot * ny }, st)
    else if maxFCD cfg < dist then
      let nx := x / dist
      let ny := y / dist
      let dot := f.vx * nx + f.vy * ny
      if 0 < dot then
        ({ f with x := nx * maxFCD cfg, y := ny * maxFCD cfg,
                  vx := f.vx - 2 * dot * nx, vy := f.vy - 2 * dot * ny }, st)
      else ({ f with x := nx * maxFCD cfg, y := ny * maxFCD cfg }, st)
    else ({ f with x := x, y := y }, st)

/-- The `updated.map`/`next.map` pass over the flag list with the shared
mutable elimination bookkeeping threaded left to right, as the source's
sequential `map` over `prev` mutates the refs in order. -/
noncomputable def stepFlags (cfg : StepCfg) (st : ElimState) : List Flag → List Flag × ElimState
  | [] => ([], st)
  | f :: fs =>
    let r := stepFlag cfg st f
    let rest := stepFlags cfg r.2 fs
    (r.1 :: rest.1, rest.2)

/-- Accumulator of the inner collision loop (lines 692-696): `newVx`, `newVy`,
`newX`, `newY`, `collided`. -/
structure CollideAcc where
  vx : ℝ
  vy : ℝ
  x : ℝ
  y : ℝ
  collided : Bool

/-- The body of the inner collision loop for one other flag (lines 699-746):
on close approach set `collided`, and when the pair is closing overwrite the
accumulated velocity with the elastic response and the position with the
half-overlap separation, both computed from `f`'s pre-collision fields. -/
noncomputable def collideScan (flagSizeLogical : ℝ) (f other : Flag) (acc : CollideAcc) :
    CollideAcc :=
  if other.eliminated || other.falling then acc else
  let dx := f.x - other.x
  let dy := f.y - other.y
  let distance := Real.sqrt (dx ^ 2 + dy ^ 2)
  let minDistance := flagSizeLogical * 0.9
  if distance < minDistance ∧ 0.001 < distance then
    let nx := dx / distance
    let ny := dy / distance
    let relativeSpeed := (f.vx - other.vx) * nx + (f.vy - other.vy) * ny
    if relativeSpeed < 0 then
      let impulse := 2 * relativeSpeed / 2
      let overlap := minDistance - distance
      ⟨f.vx - impulse * nx, f.vy - impulse * ny,
       f.x + nx * overlap * 0.5, f.y + ny * overlap * 0.5, true⟩
    else { acc with collided := true }
  else acc

/-- The collision pass for the flag at index `i` (lines 688-754): scan every
other flag (skipping self by index and eliminated/falling flags) and apply
the accumulated response if any collision was seen. -/
noncomputable def collideFlag (flagSizeLogical : ℝ) (others : List (ℕ × Flag)) (i : ℕ)
    (f : Flag) : Flag :=
  if f.eliminated || f.falling then f else
  let acc := others.foldl
    (fun acc p => if p.1 = i then acc else collideScan flagSizeLogical f p.2 acc)
    ⟨f.vx, f.vy, f.x, f.y, false⟩
  if acc.collided then { f with x := acc.x, y := acc.y, vx := acc.vx, vy := acc.vy } else f

/-- The `finalFlags` map (lines 688-754). -/
noncomputable def collideAll (flagSizeLogical : ℝ) (flags : List Flag) : List Flag :=
  flags.enum.map fun p => collideFlag flagSizeLogical flags.enum p.1 p.2

/-- One completed elimination-game step on the flag list: the boundary pass
followed by the pairwise collision pass.  (The stacked-row recentering pass,
lines 756-805, only rewrites the rendering-space `fallX`/`fallY` of stacked
flags and is omitted.) -/
noncomputable def stepRound (cfg : StepCfg) (st : ElimState) (flags : List Flag) :
    List Flag × ElimState :=
  let r := stepFlags cfg st flags
  (collideAll cfg.flagSizeLogical r.1, r.2)

/-- A flag counted as active by the round-end check (line 808). -/
def isActiveFlag (f : Flag) : Bool := !f.eliminated && !f.falling && !f.exiting

def activeCount (flags : List Flag) : ℕ := (flags.filter isActiveFlag).length

/-- The effect of the round-end check on the round state: declare the sole
active flag winner and finish, finish with no winner, or continue. -/
inductive RoundEffect where
  | declareWinner (code : String)
  | finishNoWinner
  | continueRound
deriving DecidableEq

/-- The round-end check (lines 807-823): `prev` is the flag list before the
step, `next` the list after it.  Declaring a winner also sets the game state
to `finished`; `finishNoWinner` sets it to `finished` with no winner. -/
def roundCheck (prev next : List Flag) : RoundEffect :=
  let active := next.filter isActiveFlag
  if active.length = 1 ∧ activeCount prev = 2 then
    RoundEffect.declareWinner active.headI.code
  else if active.length = 0 ∧ 0 < activeCount prev then
    RoundEffect.finishNoWinner
  else RoundEffect.continueRound

/-! ## Supporting lemmas about the step -/

theorem bisect_iter_mem (px py dx dy target : ℝ) (n : ℕ) (s : ℝ × ℝ × ℝ × Bool)
    (h : 0 ≤ s.1 ∧ s.1 ≤ s.2.2.1 ∧ s.2.2.1 ≤ s.2.1 ∧ s.2.1 ≤ 1) :
    let r := (bisectStep px py dx dy target)^[n] s
    0 ≤ r.1 ∧ r.1 ≤ r.2.2.1 ∧ r.2.2.1 ≤ r.2.1 ∧ r.2.1 ≤ 1 := by
  induction n generalizing s with
  | zero => exact h
  | succ n ih =>
    rw [Function.iterate_succ_apply]
    refine ih _ ?_
    obtain ⟨h0, h1, h2, h3⟩ := h
    unfold bisectStep
    split
    · exact ⟨h0, h1, h2, h3⟩
    · dsimp only
      split
      · exact ⟨h0, h1, h2, h3⟩
      · split
        · refine ⟨by linarith, by linarith, by linarith, h3⟩
        · refine ⟨h0, by linarith, by linarith, by linarith⟩

theorem bisectT_mem (px py dx dy target : ℝ) :
    0 ≤ bisectT px py dx dy target ∧ bisectT px py dx dy target ≤ 1 := by
  have h := bisect_iter_mem px py dx dy target 15 (0, 1, 0.5, false)
    (by norm_num)
  exact ⟨le_trans h.1 h.2.1, le_trans h.2.2.1 h.2.2.2⟩

theorem normPi_zero : normPi 0 = 0 := by
  have hπ : (0 : ℝ) < Real.pi := Real.pi_pos
  unfold normPi
  rw [if_neg (by linarith), if_neg (by linarith)]

/-- At the gap's own center angle the membership test holds for any
nonnegative width. -/
theorem isInGap_at_center (w : ℝ) (hw : 0 ≤ w) :
    Part001.isInGap (-(Real.pi / 2)) 0 w := by
  unfold Part001.isInGap
  have e : -(Real.pi / 2) - (0 - Real.pi / 2) = 0 := by ring
  rw [e, normPi_zero, abs_zero]
  positivity

/-- `Math.atan2 y 0 = -π/2` for `y < 0`: the straight-down direction. -/
theorem atan2_neg_vertical (y : ℝ) (hy : y < 0) : atan2 y 0 = -(Real.pi / 2) := by
  unfold atan2
  exact Complex.arg_eq_neg_pi_div_two_iff.mpr ⟨rfl, hy⟩

theorem maxFCD_pos (cfg : StepCfg) : 0 < maxFCD cfg :=
  lt_of_lt_of_le (by norm_num) (le_max_left _ _)

theorem maxFCD_le_radius (cfg : StepCfg) (h : 0 ≤ cfg.flagSizeLogical) :
    maxFCD cfg ≤ radius := by
  unfold maxFCD radius
  apply max_le (by norm_num)
  linarith

/-- C5: the round-end check declares a winner exactly when the active count
(not eliminated, not exiting, not falling) goes from 2 before the step to 1
after it, and then the declared winner is the sole remaining active flag
(both branches also move the round state to `finished`); it finishes with no
winner exactly when the active count drops to 0 from a positive count. -/
theorem round_end_condition (prev next : List Flag) :
    (∀ c : String, roundCheck prev next = RoundEffect.declareWinner c ↔
      activeCount next = 1 ∧ activeCount prev = 2 ∧
        (next.filter isActiveFlag).map Flag.code = [c]) ∧
    (roundCheck prev next = RoundEffect.finishNoWinner ↔
      activeCount next = 0 ∧ 0 < activeCount prev) := by
  have hAC : activeCount next = (next.filter isActiveFlag).length := rfl
  constructor
  · intro c
    simp only [roundCheck]
    split_ifs with h1 h2
    · obtain ⟨a, ha⟩ := List.length_eq_one.mp h1.1
      rw [ha]
      constructor
      · intro he
        have hc : a.code = c := by
          have := RoundEffect.declareWinner.injEq (List.headI [a]).code c
          simp only [List.headI] at he
          injection he
        exact ⟨by rw [hAC, h1.1], h1.2, by simp [hc]⟩
      · rintro ⟨-, -, h3⟩
        have hc : a.code = c := by simpa using h3
        simp [List.headI, hc]
    · constructor
      · intro he
        exact absurd he (by simp)
      · rintro ⟨hn, -, -⟩
        rw [hAC, h2.1] at hn
        exact absurd hn (by norm_num)
    · constructor
      · intro he
        exact absurd he (by simp)
      · rintro ⟨hn, hp, -⟩
        rw [hAC] at hn
        exact absurd ⟨hn, hp⟩ h1
  · simp only [roundCheck]
    split_ifs with h1 h2
    · constructor
      · intro he
        exact absurd he (by simp)
      · rintro ⟨hn, -⟩
        rw [hAC] at hn
        rw [h1.1] at hn
        exact absurd hn (by norm_num)
    · exact ⟨fun _ => ⟨by rw [hAC, h2.1], h2.2⟩, fun _ => rfl⟩
    · constructor
      · intro he
        exact absurd he (by simp)
      · rintro ⟨hn, hp⟩
        rw [hAC] at hn
        exact absurd ⟨hn, hp⟩ h2

/-- The elimination bookkeeping's state is touched only through
`recordElim`: one step either leaves it alone or records this flag's code. -/
theorem stepFlag_snd_cases (cfg : StepCfg) (st : ElimState) (f : Flag) :
    (stepFlag cfg st f).2 = st ∨ (stepFlag cfg st f).2 = recordElim st f.code := by
  unfold stepFlag
  split
  · exact Or.inl rfl
  · dsimp only
    split
    · next r hB =>
      right
      repeat' split at hB
      all_goals
        first
        | exact Sum.noConfusion hB
        | (injection hB with hB
           subst hB
           rfl)
    · next x y hB =>
      clear hB
      repeat' split
      all_goals first | (exact Or.inr rfl) | (exact Or.inl rfl)

/-- Invariant of the elimination bookkeeping: the eliminated list has no
duplicate identity, every listed identity is in the seen set, and the order
counter equals the list length. -/
def ElimInv (st : ElimState) : Prop :=
  st.elimList.Nodup ∧ (∀ c ∈ st.elimList, c ∈ st.seen) ∧ st.counter = st.elimList.length

theorem recordElim_inv (st : ElimState) (code : String) (h : ElimInv st) :
    ElimInv (recordElim st code) ∧ ∃ l, (recordElim st code).elimList = st.elimList ++ l := by
  obtain ⟨hnd, hsub, hcnt⟩ := h
  unfold recordElim
  split
  · exact ⟨⟨hnd, hsub, hcnt⟩, ⟨[], by simp⟩⟩
  · next hmem =>
    have hnotseen : code ∉ st.seen := by simpa using hmem
    have hnotelim : code ∉ st.elimList := fun hc => hnotseen (hsub _ hc)
    refine ⟨⟨?_, ?_, ?_⟩, ⟨[code], rfl⟩⟩
    · rw [List.nodup_append]
      exact ⟨hnd, List.nodup_singleton _, by simpa using hnotelim⟩
    · intro c hc
      rcases List.mem_append.mp hc with hc | hc
      · exact List.mem_cons_of_mem _ (hsub _ hc)
      · have : c = code := by simpa using hc
        subst this
        exact List.mem_cons_self _ _
    · simp [hcnt]

theorem stepFlags_elim_inv (cfg : StepCfg) (fs : List Flag) (st : ElimState) (h : ElimInv st) :
    ElimInv (stepFlags cfg st fs).2 ∧
      ∃ l, (stepFlags cfg st fs).2.elimList = st.elimList ++ l := by
  induction fs generalizing st with
  | nil => exact ⟨h, ⟨[], by simp [stepFlags]⟩⟩
  | cons f fs ih =>
    show ElimInv (stepFlags cfg (stepFlag cfg st f).2 fs).2 ∧
      ∃ l, (stepFlags cfg (stepFlag cfg st f).2 fs).2.elimList = st.elimList ++ l
    rcases stepFlag_snd_cases cfg st f with hc | hc
    · rw [hc]
      exact ih st h
    · rw [hc]
      obtain ⟨h', l0, hl0⟩ := recordElim_inv st f.code h
      obtain ⟨hinv, l1, hl1⟩ := ih _ h'
      exact ⟨hinv, ⟨l0 ++ l1, by rw [hl1, hl0, List.append_assoc]⟩⟩

/-- C6: across one pass over the flag list, the elimination bookkeeping keeps
its invariant: the eliminated-in-order list stays duplicate-free (the append
is guarded by the seen set keyed on the flag's identity), the order counter
always equals the list's length, and the list only grows by appending new
identities at its end — so the order values handed out at successive
eliminations are the successive list lengths: strictly increasing and never
reused. -/
theorem elimination_order_monotone (cfg : StepCfg) (fs : List Flag) (st : ElimState)
    (hnd : st.elimList.Nodup) (hsub : ∀ c ∈ st.elimList, c ∈ st.seen)
    (hcnt : st.counter = st.elimList.length) :
    (stepFlags cfg st fs).2.elimList.Nodup ∧
    (∀ c ∈ (stepFlags cfg st fs).2.elimList, c ∈ (stepFlags cfg st fs).2.seen) ∧
    (stepFlags cfg st fs).2.counter = (stepFlags cfg st fs).2.elimList.length ∧
    ∃ l, (stepFlags cfg st fs).2.elimList = st.elimList ++ l := by
  obtain ⟨⟨h1, h2, h3⟩, h4⟩ := stepFlags_elim_inv cfg fs st ⟨hnd, hsub, hcnt⟩
  exact ⟨h1, h2, h3, h4⟩

/-- C6 at a concrete input: one flag stepped from the empty bookkeeping. -/
theorem elimination_order_monotone_witness :
    ((stepFlags ⟨16, false, 0, 35, 0.09⟩ ⟨0, [], []⟩
        [⟨"AA", 0.1, 0.1, 0.1, 0.1, false, none, false, false, false⟩]).2.elimList.Nodup ∧
     (∀ c ∈ (stepFlags ⟨16, false, 0, 35, 0.09⟩ ⟨0, [], []⟩
        [⟨"AA", 0.1, 0.1, 0.1, 0.1, false, none, false, false, false⟩]).2.elimList,
        c ∈ (stepFlags ⟨16, false, 0, 35, 0.09⟩ ⟨0, [], []⟩
        [⟨"AA", 0.1, 0.1, 0.1, 0.1, false, none, false, false, false⟩]).2.seen) ∧
     (stepFlags ⟨16, false, 0, 35, 0.09⟩ ⟨0, [], []⟩
        [⟨"AA", 0.1, 0.1, 0.1, 0.1, false, none, false, false, false⟩]).2.counter =
       (stepFlags ⟨16, false, 0, 35, 0.09⟩ ⟨0, [], []⟩
        [⟨"AA", 0.1, 0.1, 0.1, 0.1, false, none, false, false, false⟩]).2.elimList.length ∧
     ∃ l, (stepFlags ⟨16, false, 0, 35, 0.09⟩ ⟨0, [], []⟩
        [⟨"AA", 0.1, 0.1, 0.1, 0.1, false, none, false, false, false⟩]).2.elimList =
       (ElimState.mk 0 [] []).elimList ++ l) :=
  elimination_order_monotone ⟨16, false, 0, 35, 0.09⟩
    [⟨"AA", 0.1, 0.1, 0.1, 0.1, false, none, false, false, false⟩] ⟨0, [], []⟩
    (by simp) (by simp) rfl

/-- A point clamped radially to distance `m` has distance exactly `m`. -/
theorem clamped_norm (x y m : ℝ) (hm : 0 ≤ m) (hd : 0 < Real.sqrt (x ^ 2 + y ^ 2)) :
    Real.sqrt ((x / Real.sqrt (x ^ 2 + y ^ 2) * m) ^ 2 +
      (y / Real.sqrt (x ^ 2 + y ^ 2) * m) ^ 2) = m := by
  have hd2 : Real.sqrt (x ^ 2 + y ^ 2) ^ 2 = x ^ 2 + y ^ 2 := Real.sq_sqrt (by positivity)
  have hne : Real.sqrt (x ^ 2 + y ^ 2) ≠ 0 := ne_of_gt hd
  have e : (x / Real.sqrt (x ^ 2 + y ^ 2) * m) ^ 2 +
      (y / Real.sqrt (x ^ 2 + y ^ 2) * m) ^ 2 = m ^ 2 := by
    have e1 : (x / Real.sqrt (x ^ 2 + y ^ 2) * m) ^ 2 +
        (y / Real.sqrt (x ^ 2 + y ^ 2) * m) ^ 2 =
        (x ^ 2 + y ^ 2) * m ^ 2 / Real.sqrt (x ^ 2 + y ^ 2) ^ 2 := by ring
    rw [e1, hd2]
    exact mul_div_cancel_left₀ _ (ne_of_gt (Real.sqrt_pos.mp hd))
  rw [e, Real.sqrt_sq hm]

theorem radius_pos : (0 : ℝ) < radius := by unfold radius; norm_num

/-- The radial clamp never puts a point beyond distance `m`, degenerate
origin included (division by zero yields zero in the embedding's field,
matching the guarded source which only divides nonzero distances). -/
theorem clamped_norm_le (x y m : ℝ) (hm : 0 ≤ m) :
    Real.sqrt ((x / Real.sqrt (x ^ 2 + y ^ 2) * m) ^ 2 +
      (y / Real.sqrt (x ^ 2 + y ^ 2) * m) ^ 2) ≤ m := by
  rcases eq_or_lt_of_le (Real.sqrt_nonneg (x ^ 2 + y ^ 2)) with h | h
  · rw [← h]
    simpa using hm
  · rw [clamped_norm x y m hm h]

/-- Every return path of the boundary pass leaves a still-active flag within
`maxFlagCenterDistance` of the center: the wall-hit and safety branches clamp
to exactly that distance, the pass-through branch is below it, and the exit
branches mark the flag eliminated. -/
theorem stepFlag_active_contained (cfg : StepCfg) (st : ElimState) (f g : Flag)
    (st' : ElimState) (hg : stepFlag cfg st f = (g, st'))
    (ha : isActiveFlag g = true) :
    Real.sqrt (g.x ^ 2 + g.y ^ 2) ≤ maxFCD cfg := by
  have hm : (0 : ℝ) < maxFCD cfg := maxFCD_pos cfg
  unfold stepFlag at hg
  split at hg
  · next hskip =>
    injection hg with h1 h2
    subst h1
    rcases Bool.or_eq_true _ _ |>.mp hskip with h | h <;>
      simp [isActiveFlag, h] at ha
  · next hrun =>
    dsimp only at hg
    split at hg
    · next r hB =>
      subst hg
      repeat' split at hB
      all_goals
        first
        | exact Sum.noConfusion hB
        | (injection hB with hB
           rw [show g = ((g, st') : Flag × ElimState).1 from rfl, ← hB] at ha
           simp [markExit, isActiveFlag] at ha)
    · next x y hB =>
      clear hB
      simp only [markExit] at hg
      repeat' split at hg
      all_goals (injection hg with h1 h2; subst h1)
      all_goals try (simp [isActiveFlag] at ha)
      all_goals dsimp only
      all_goals
        first
        | (apply le_of_not_lt
           assumption)
        | exact clamped_norm_le x y (maxFCD cfg) hm.le

/-- Triangle inequality for the plane distance written with explicit square
roots. -/
theorem sqrt_pair_add_le (x y u v : ℝ) :
    Real.sqrt ((x + u) ^ 2 + (y + v) ^ 2) ≤
      Real.sqrt (x ^ 2 + y ^ 2) + Real.sqrt (u ^ 2 + v ^ 2) := by
  set A := Real.sqrt (x ^ 2 + y ^ 2) with hA
  set B := Real.sqrt (u ^ 2 + v ^ 2) with hB
  have hA0 : 0 ≤ A := Real.sqrt_nonneg _
  have hB0 : 0 ≤ B := Real.sqrt_nonneg _
  have hA2 : A ^ 2 = x ^ 2 + y ^ 2 := Real.sq_sqrt (by positivity)
  have hB2 : B ^ 2 = u ^ 2 + v ^ 2 := Real.sq_sqrt (by positivity)
  have hsq : (x * u + y * v) ^ 2 ≤ (A * B) ^ 2 := by
    nlinarith [sq_nonneg (x * v - y * u)]
  have habs : |x * u + y * v| ≤ |A * B| := by
    have := Real.sqrt_le_sqrt hsq
    rwa [Real.sqrt_sq_eq_abs, Real.sqrt_sq_eq_abs] at this
  have hcs : x * u + y * v ≤ A * B := by
    calc x * u + y * v ≤ |x * u + y * v| := le_abs_self _
      _ ≤ |A * B| := habs
      _ = A * B := abs_of_nonneg (mul_nonneg hA0 hB0)
  have key : (x + u) ^ 2 + (y + v) ^ 2 ≤ (A + B) ^ 2 := by nlinarith
  calc Real.sqrt ((x + u) ^ 2 + (y + v) ^ 2) ≤ Real.sqrt ((A + B) ^ 2) :=
        Real.sqrt_le_sqrt key
    _ = A + B := Real.sqrt_sq (by positivity)

/-- One scan of the inner collision loop moves the accumulated position by at
most half the overlap, which is below `0.45` flag sizes. -/
theorem collideScan_bound (fsl : ℝ) (f other : Flag) (acc : CollideAcc)
    (h : Real.sqrt (acc.x ^ 2 + acc.y ^ 2) ≤ Real.sqrt (f.x ^ 2 + f.y ^ 2) + 0.45 * fsl) :
    Real.sqrt ((collideScan fsl f other acc).x ^ 2 + (collideScan fsl f other acc).y ^ 2) ≤
      Real.sqrt (f.x ^ 2 + f.y ^ 2) + 0.45 * fsl := by
  unfold collideScan
  split
  · exact h
  · dsimp only
    split
    · next hcond =>
      split
      · next hrel =>
        dsimp only
        set d := Real.sqrt ((f.x - other.x) ^ 2 + (f.y - other.y) ^ 2) with hd
        have hd0 : (0.001 : ℝ) < d := hcond.2
        have hdpos : 0 < d := lt_trans (by norm_num) hd0
        have hvlt : d < fsl * 0.9 := hcond.1
        have hov : 0 ≤ (fsl * 0.9 - d) * 0.5 := by nlinarith
        have e1 : (f.x - other.x) / d * (fsl * 0.9 - d) * 0.5 =
            (f.x - other.x) / d * ((fsl * 0.9 - d) * 0.5) := by ring
        have e2 : (f.y - other.y) / d * (fsl * 0.9 - d) * 0.5 =
            (f.y - other.y) / d * ((fsl * 0.9 - d) * 0.5) := by ring
        rw [e1, e2]
        have hsep := clamped_norm (f.x - other.x) (f.y - other.y)
          ((fsl * 0.9 - d) * 0.5) hov (hd ▸ hdpos)
        rw [← hd] at hsep
        calc Real.sqrt ((f.x + (f.x - other.x) / d * ((fsl * 0.9 - d) * 0.5)) ^ 2 +
              (f.y + (f.y - other.y) / d * ((fsl * 0.9 - d) * 0.5)) ^ 2) ≤
            Real.sqrt (f.x ^ 2 + f.y ^ 2) +
              Real.sqrt (((f.x - other.x) / d * ((fsl * 0.9 - d) * 0.5)) ^ 2 +
                ((f.y - other.y) / d * ((fsl * 0.9 - d) * 0.5)) ^ 2) :=
            sqrt_pair_add_le _ _ _ _
          _ = Real.sqrt (f.x ^ 2 + f.y ^ 2) + (fsl * 0.9 - d) * 0.5 := by rw [hsep]
          _ ≤ Real.sqrt (f.x ^ 2 + f.y ^ 2) + 0.45 * fsl := by nlinarith
      · exact h
    · exact h

theorem collideFold_bound (fsl : ℝ) (f : Flag) (l : List (ℕ × Flag)) (i : ℕ)
    (acc : CollideAcc)
    (h : Real.sqrt (acc.x ^ 2 + acc.y ^ 2) ≤ Real.sqrt (f.x ^ 2 + f.y ^ 2) + 0.45 * fsl) :
    Real.sqrt ((l.foldl (fun a p => if p.1 = i then a else collideScan fsl f p.2 a) acc).x ^ 2 +
        (l.foldl (fun a p => if p.1 = i then a else collideScan fsl f p.2 a) acc).y ^ 2) ≤
      Real.sqrt (f.x ^ 2 + f.y ^ 2) + 0.45 * fsl := by
  induction l generalizing acc with
  | nil => exact h
  | cons p l ih =>
    dsimp only [List.foldl]
    split
    · exact ih acc h
    · exact ih _ (collideScan_bound fsl f p.2 acc h)

theorem collideFlag_bound (fsl : ℝ) (others : List (ℕ × Flag)) (i : ℕ) (f : Flag) (m : ℝ)
    (hfsl : 0 ≤ fsl) (hf : Real.sqrt (f.x ^ 2 + f.y ^ 2) ≤ m) :
    Real.sqrt ((collideFlag fsl others i f).x ^ 2 + (collideFlag fsl others i f).y ^ 2) ≤
      m + 0.45 * fsl := by
  have hpad : (0 : ℝ) ≤ 0.45 * fsl := by nlinarith
  unfold collideFlag
  split
  · linarith
  · dsimp only
    split
    · have hinit : Real.sqrt ((CollideAcc.mk f.vx f.vy f.x f.y false).x ^ 2 +
          (CollideAcc.mk f.vx f.vy f.x f.y false).y ^ 2) ≤
          Real.sqrt (f.x ^ 2 + f.y ^ 2) + 0.45 * fsl := by
        dsimp only
        linarith
      have := collideFold_bound fsl f others i ⟨f.vx, f.vy, f.x, f.y, false⟩ hinit
      dsimp only
      linarith
    · linarith

theorem collideFlag_phase (fsl : ℝ) (others : List (ℕ × Flag)) (i : ℕ) (f : Flag) :
    (collideFlag fsl others i f).eliminated = f.eliminated ∧
    (collideFlag fsl others i f).falling = f.falling ∧
    (collideFlag fsl others i f).exiting = f.exiting := by
  unfold collideFlag
  split
  · exact ⟨rfl, rfl, rfl⟩
  · dsimp only
    split <;> exact ⟨rfl, rfl, rfl⟩

theorem mem_stepFlags (cfg : StepCfg) (fs : List Flag) (st : ElimState) (g : Flag)
    (hg : g ∈ (stepFlags cfg st fs).1) :
    ∃ st0 f, f ∈ fs ∧ g = (stepFlag cfg st0 f).1 := by
  induction fs generalizing st with
  | nil => simp [stepFlags] at hg
  | cons f fs ih =>
    have : (stepFlags cfg st (f :: fs)).1 =
        (stepFlag cfg st f).1 :: (stepFlags cfg (stepFlag cfg st f).2 fs).1 := rfl
    rw [this] at hg
    rcases List.mem_cons.mp hg with h | h
    · exact ⟨st, f, List.mem_cons_self _ _, h⟩
    · obtain ⟨st0, f0, hf0, he⟩ := ih _ h
      exact ⟨st0, f0, List.mem_cons_of_mem _ hf0, he⟩

/-- C3: after one completed elimination-game step — the boundary pass with
its clamps followed by the pairwise-collision pass with its separation
displacement — every flag that is still active (not eliminated, not exiting,
not falling) lies within `maxFlagCenterDistance` of the arena center up to
the tolerance `ε = 0.45 ×` the flag's logical size, half the pairwise
collision distance: the boundary pass leaves active flags at distance at most
`maxFlagCenterDistance` and one separation displaces by less than half the
collision overlap. -/
theorem active_flags_within_bounds (cfg : StepCfg) (st : ElimState) (flags : List Flag)
    (hfsl : 0 ≤ cfg.flagSizeLogical) :
    List.Forall (fun g => isActiveFlag g = true →
        Real.sqrt (g.x ^ 2 + g.y ^ 2) ≤ maxFCD cfg + 0.45 * cfg.flagSizeLogical)
      (stepRound cfg st flags).1 := by
  rw [List.forall_iff_forall_mem]
  intro g hg ha
  unfold stepRound collideAll at hg
  dsimp only at hg
  obtain ⟨p, hp, he⟩ := List.mem_map.mp hg
  have hmem : p.2 ∈ (stepFlags cfg st flags).1 := List.snd_mem_of_mem_enum hp
  obtain ⟨st0, f0, hf0, hef⟩ := mem_stepFlags cfg flags st p.2 hmem
  have hphase := collideFlag_phase cfg.flagSizeLogical (stepFlags cfg st flags).1.enum p.1 p.2
  have hact2 : isActiveFlag p.2 = true := by
    rw [← he] at ha
    unfold isActiveFlag at ha ⊢
    rw [hphase.1, hphase.2.1, hphase.2.2] at ha
    exact ha
  have hc : Real.sqrt (p.2.x ^ 2 + p.2.y ^ 2) ≤ maxFCD cfg := by
    rw [hef] at hact2 ⊢
    exact stepFlag_active_contained cfg st0 f0 _ _ rfl hact2
  rw [← he]
  exact collideFlag_bound cfg.flagSizeLogical (stepFlags cfg st flags).1.enum p.1 p.2
    (maxFCD cfg) hfsl hc

/-- C3 at a concrete input: a two-flag configuration stepped once. -/
theorem active_flags_within_bounds_witness :
    List.Forall (fun g => isActiveFlag g = true →
        Real.sqrt (g.x ^ 2 + g.y ^ 2) ≤
          maxFCD ⟨16, false, 0, 35, 0.09⟩ + 0.45 * (0.09 : ℝ))
      (stepRound ⟨16, false, 0, 35, 0.09⟩ ⟨0, [], []⟩
        [⟨"AA", 0.1, 0.1, 0.2, 0.0, false, none, false, false, false⟩,
         ⟨"BB", 0.15, 0.1, -0.2, 0.0, false, none, false, false, false⟩]).1 :=
  active_flags_within_bounds ⟨16, false, 0, 35, 0.09⟩ ⟨0, [], []⟩
    [⟨"AA", 0.1, 0.1, 0.2, 0.0, false, none, false, false, false⟩,
     ⟨"BB", 0.15, 0.1, -0.2, 0.0, false, none, false, false, false⟩] (by norm_num)

/-- C4: for two active flags closer than `0.9 ×` the flag size whose relative
velocity along the line of centers is closing, the collision pass — each
flag's update computed from the pre-collision velocities — preserves the
total momentum exactly: the sums `vx1 + vx2` and `vy1 + vy2` are unchanged
(with equal masses the impulse the pair exchanges cancels; in exact real
arithmetic no tolerance is needed). -/
theorem elastic_collision_momentum (fsl : ℝ) (f1 f2 : Flag)
    (h1e : f1.eliminated = false) (h1f : f1.falling = false)
    (h2e : f2.eliminated = false) (h2f : f2.falling = false)
    (hclose : Real.sqrt ((f1.x - f2.x) ^ 2 + (f1.y - f2.y) ^ 2) < fsl * 0.9)
    (hclosing : (f1.vx - f2.vx) * (f1.x - f2.x) + (f1.vy - f2.vy) * (f1.y - f2.y) < 0) :
    ∃ g1 g2, collideAll fsl [f1, f2] = [g1, g2] ∧
      g1.vx + g2.vx = f1.vx + f2.vx ∧ g1.vy + g2.vy = f1.vy + f2.vy := by
  set d := Real.sqrt ((f1.x - f2.x) ^ 2 + (f1.y - f2.y) ^ 2) with hd
  have hsymm : Real.sqrt ((f2.x - f1.x) ^ 2 + (f2.y - f1.y) ^ 2) = d := by
    rw [hd]
    congr 1
    ring
  have hcA : collideAll fsl [f1, f2] =
      [collideFlag fsl [(0, f1), (1, f2)] 0 f1,
       collideFlag fsl [(0, f1), (1, f2)] 1 f2] := rfl
  rcases lt_or_le 0.001 d with hgt | hle
  · have hdpos : (0 : ℝ) < d := lt_trans (by norm_num) hgt
    have hrel1 : (f1.vx - f2.vx) * ((f1.x - f2.x) / d) +
        (f1.vy - f2.vy) * ((f1.y - f2.y) / d) < 0 := by
      have e : (f1.vx - f2.vx) * ((f1.x - f2.x) / d) +
          (f1.vy - f2.vy) * ((f1.y - f2.y) / d) =
          ((f1.vx - f2.vx) * (f1.x - f2.x) + (f1.vy - f2.vy) * (f1.y - f2.y)) / d := by
        ring
      rw [e]
      exact div_neg_of_neg_of_pos hclosing hdpos
    have hrel2 : (f2.vx - f1.vx) * ((f2.x - f1.x) / d) +
        (f2.vy - f1.vy) * ((f2.y - f1.y) / d) < 0 := by
      have e : (f2.vx - f1.vx) * ((f2.x - f1.x) / d) +
          (f2.vy - f1.vy) * ((f2.y - f1.y) / d) =
          ((f1.vx - f2.vx) * (f1.x - f2.x) + (f1.vy - f2.vy) * (f1.y - f2.y)) / d := by
        ring
      rw [e]
      exact div_neg_of_neg_of_pos hclosing hdpos
    have hscan1 : collideScan fsl f1 f2 ⟨f1.vx, f1.vy, f1.x, f1.y, false⟩ =
        ⟨f1.vx - 2 * ((f1.vx - f2.vx) * ((f1.x - f2.x) / d) +
            (f1.vy - f2.vy) * ((f1.y - f2.y) / d)) / 2 * ((f1.x - f2.x) / d),
          f1.vy - 2 * ((f1.vx - f2.vx) * ((f1.x - f2.x) / d) +
            (f1.vy - f2.vy) * ((f1.y - f2.y) / d)) / 2 * ((f1.y - f2.y) / d),
          f1.x + (f1.x - f2.x) / d * (fsl * 0.9 - d) * 0.5,
          f1.y + (f1.y - f2.y) / d * (fsl * 0.9 - d) * 0.5, true⟩ := by
      unfold collideScan
      rw [if_neg (by simp [h2e, h2f])]
      dsimp only
      rw [if_pos ⟨hclose, hgt⟩, if_pos hrel1]
    have hscan2 : collideScan fsl f2 f1 ⟨f2.vx, f2.vy, f2.x, f2.y, false⟩ =
        ⟨f2.vx - 2 * ((f2.vx - f1.vx) * ((f2.x - f1.x) / d) +
            (f2.vy - f1.vy) * ((f2.y - f1.y) / d)) / 2 * ((f2.x - f1.x) / d),
          f2.vy - 2 * ((f2.vx - f1.vx) * ((f2.x - f1.x) / d) +
            (f2.vy - f1.vy) * ((f2.y - f1.y) / d)) / 2 * ((f2.y - f1.y) / d),
          f2.x + (f2.x - f1.x) / d * (fsl * 0.9 - d) * 0.5,
          f2.y + (f2.y - f1.y) / d * (fsl * 0.9 - d) * 0.5, true⟩ := by
      unfold collideScan
      rw [if_neg (by simp [h1e, h1f])]
      dsimp only
      rw [hsymm, if_pos ⟨hclose, hgt⟩, if_pos hrel2]
    have hg1 : collideFlag fsl [(0, f1), (1, f2)] 0 f1 =
        { f1 with
          x := f1.x + (f1.x - f2.x) / d * (fsl * 0.9 - d) * 0.5,
          y := f1.y + (f1.y - f2.y) / d * (fsl * 0.9 - d) * 0.5,
          vx := f1.vx - 2 * ((f1.vx - f2.vx) * ((f1.x - f2.x) / d) +
            (f1.vy - f2.vy) * ((f1.y - f2.y) / d)) / 2 * ((f1.x - f2.x) / d),
          vy := f1.vy - 2 * ((f1.vx - f2.vx) * ((f1.x - f2.x) / d) +
            (f1.vy - f2.vy) * ((f1.y - f2.y) / d)) / 2 * ((f1.y - f2.y) / d) } := by
      unfold collideFlag
      rw [if_neg (by simp [h1e, h1f])]
      dsimp only [List.foldl]
      rw [if_pos (show (0 : ℕ) = 0 from rfl), if_neg (show ¬ (1 : ℕ) = 0 by norm_num),
        hscan1]
      rfl
    have hg2 : collideFlag fsl [(0, f1), (1, f2)] 1 f2 =
        { f2 with
          x := f2.x + (f2.x - f1.x) / d * (fsl * 0.9 - d) * 0.5,
          y := f2.y + (f2.y - f1.y) / d * (fsl * 0.9 - d) * 0.5,
          vx := f2.vx - 2 * ((f2.vx - f1.vx) * ((f2.x - f1.x) / d) +
            (f2.vy - f1.vy) * ((f2.y - f1.y) / d)) / 2 * ((f2.x - f1.x) / d),
          vy := f2.vy - 2 * ((f2.vx - f1.vx) * ((f2.x - f1.x) / d) +
            (f2.vy - f1.vy) * ((f2.y - f1.y) / d)) / 2 * ((f2.y - f1.y) / d) } := by
      unfold collideFlag
      rw [if_neg (by simp [h2e, h2f])]
      dsimp only [List.foldl]
      rw [if_neg (show ¬ (0 : ℕ) = 1 by norm_num), if_pos (show (1 : ℕ) = 1 from rfl),
        hscan2]
      rfl
    refine ⟨_, _, by rw [hcA, hg1, hg2], ?_, ?_⟩ <;>
      · dsimp only
        ring
  · have hscan1 : collideScan fsl f1 f2 ⟨f1.vx, f1.vy, f1.x, f1.y, false⟩ =
        ⟨f1.vx, f1.vy, f1.x, f1.y, false⟩ := by
      unfold collideScan
      rw [if_neg (by simp [h2e, h2f])]
      dsimp only
      rw [if_neg (fun hc => absurd hc.2 (not_lt.mpr hle))]
    have hscan2 : collideScan fsl f2 f1 ⟨f2.vx, f2.vy, f2.x, f2.y, false⟩ =
        ⟨f2.vx, f2.vy, f2.x, f2.y, false⟩ := by
      unfold collideScan
      rw [if_neg (by simp [h1e, h1f])]
      dsimp only
      rw [hsymm, if_neg (fun hc => absurd hc.2 (not_lt.mpr hle))]
    have hg1 : collideFlag fsl [(0, f1), (1, f2)] 0 f1 = f1 := by
      unfold collideFlag
      rw [if_neg (by simp [h1e, h1f])]
      dsimp only [List.foldl]
      rw [if_pos (show (0 : ℕ) = 0 from rfl), if_neg (show ¬ (1 : ℕ) = 0 by norm_num),
        hscan1]
      rfl
    have hg2 : collideFlag fsl [(0, f1), (1, f2)] 1 f2 = f2 := by
      unfold collideFlag
      rw [if_neg (by simp [h2e, h2f])]
      dsimp only [List.foldl]
      rw [if_neg (show ¬ (0 : ℕ) = 1 by norm_num), if_pos (show (1 : ℕ) = 1 from rfl),
        hscan2]
      rfl
    exact ⟨f1, f2, by rw [hcA, hg1, hg2], rfl, rfl⟩

/-- C4 at a concrete input: two flags 0.05 apart (flag size 0.09) moving
head-on. -/
theorem elastic_collision_momentum_witness :
    ∃ g1 g2,
      collideAll 0.09
        [⟨"AA", 0, 0, 1, 0, false, none, false, false, false⟩,
         ⟨"BB", 0.05, 0, -1, 0, false, none, false, false, false⟩] = [g1, g2] ∧
      g1.vx + g2.vx =
        (Flag.mk "AA" 0 0 1 0 false none false false false).vx +
          (Flag.mk "BB" 0.05 0 (-1) 0 false none false false false).vx ∧
      g1.vy + g2.vy =
        (Flag.mk "AA" 0 0 1 0 false none false false false).vy +
          (Flag.mk "BB" 0.05 0 (-1) 0 false none false false false).vy := by
  refine elastic_collision_momentum 0.09
    ⟨"AA", 0, 0, 1, 0, false, none, false, false, false⟩
    ⟨"BB", 0.05, 0, -1, 0, false, none, false, false, false⟩ rfl rfl rfl rfl ?_ ?_
  · show Real.sqrt (((0 : ℝ) - 0.05) ^ 2 + ((0 : ℝ) - 0) ^ 2) < 0.09 * 0.9
    have e : ((0 : ℝ) - 0.05) ^ 2 + ((0 : ℝ) - 0) ^ 2 = 0.05 ^ 2 := by norm_num
    rw [e, Real.sqrt_sq (by norm_num)]
    norm_num
  · show ((1 : ℝ) - (-1)) * ((0 : ℝ) - 0.05) + ((0 : ℝ) - 0) * ((0 : ℝ) - 0) < 0
    norm_num

/-- C2: with gap rotation disabled (the gap static at rotation 0, i.e. the
gap's center at the top of the circle) and gap width 35°, an active flag
placed exactly on the center-distance boundary at the gap's center angle
with velocity pointing radially outward is, on this step, marked
`eliminated` and moved to the `exiting` phase; it does not bounce: its
velocity is returned unreflected and its position is not clamped back
inside the boundary. -/
theorem gap_exit_not_bounce (cfg : StepCfg) (st : ElimState) (code : String)
    (ord : Option ℕ) (stk : Bool) (vy : ℝ) (f : Flag)
    (hf : f = ⟨code, 0, -maxFCD cfg, 0, vy, false, ord, false, false, stk⟩)
    (hen : cfg.gapRotationEnabled = false) (hgap : cfg.gapSize = 35)
    (hdt : 0 < cfg.dt) (hvy : vy < 0) :
    (stepFlag cfg st f).1.eliminated = true ∧ (stepFlag cfg st f).1.exiting = true ∧
    (stepFlag cfg st f).1.vx = 0 ∧ (stepFlag cfg st f).1.vy = vy ∧
    maxFCD cfg ≤ Real.sqrt ((stepFlag cfg st f).1.x ^ 2 + (stepFlag cfg st f).1.y ^ 2) := by
  have hm : (0 : ℝ) < maxFCD cfg := maxFCD_pos cfg
  have hBS : (0 : ℝ) < BASE_SPEED := by unfold BASE_SPEED; norm_num
  have h1 : vy * cfg.dt < 0 := mul_neg_of_neg_of_pos hvy hdt
  have h2 : vy * cfg.dt * BASE_SPEED < 0 := mul_neg_of_neg_of_pos h1 hBS
  have hvyc : vy * cfg.dt * BASE_SPEED * 60 < 0 := by nlinarith
  have hdistt : ∀ t : ℝ, 0 ≤ t → t ≤ 1 →
      maxFCD cfg ≤ Real.sqrt ((0 + t * (0 + 0 * cfg.dt * BASE_SPEED * 60 - 0)) ^ 2 +
        (-maxFCD cfg + t * (-maxFCD cfg + vy * cfg.dt * BASE_SPEED * 60 - -maxFCD cfg)) ^ 2) := by
    intro t ht0 ht1
    have htv : t * (vy * cfg.dt * BASE_SPEED * 60) ≤ 0 :=
      mul_nonpos_of_nonneg_of_nonpos ht0 hvyc.le
    rw [show (0 : ℝ) + t * (0 + 0 * cfg.dt * BASE_SPEED * 60 - 0) = 0 from by ring,
        show -maxFCD cfg + t * (-maxFCD cfg + vy * cfg.dt * BASE_SPEED * 60 - -maxFCD cfg) =
          -(maxFCD cfg - t * (vy * cfg.dt * BASE_SPEED * 60)) from by ring,
        show (0 : ℝ) ^ 2 + (-(maxFCD cfg - t * (vy * cfg.dt * BASE_SPEED * 60))) ^ 2 =
          (maxFCD cfg - t * (vy * cfg.dt * BASE_SPEED * 60)) ^ 2 from by ring,
        Real.sqrt_sq (by linarith)]
    linarith
  have hgapPoint : ∀ t : ℝ, 0 ≤ t →
      Part001.isInGap (atan2
        (-maxFCD cfg + t * (-maxFCD cfg + vy * cfg.dt * BASE_SPEED * 60 - -maxFCD cfg))
        (0 + t * (0 + 0 * cfg.dt * BASE_SPEED * 60 - 0))) 0 cfg.gapSize := by
    intro t ht0
    have htv : t * (vy * cfg.dt * BASE_SPEED * 60) ≤ 0 :=
      mul_nonpos_of_nonneg_of_nonpos ht0 hvyc.le
    rw [show (0 : ℝ) + t * (0 + 0 * cfg.dt * BASE_SPEED * 60 - 0) = 0 from by ring,
        show -maxFCD cfg + t * (-maxFCD cfg + vy * cfg.dt * BASE_SPEED * 60 - -maxFCD cfg) =
          -(maxFCD cfg - t * (vy * cfg.dt * BASE_SPEED * 60)) from by ring,
        atan2_neg_vertical _ (by linarith), hgap]
    exact isInGap_at_center 35 (by norm_num)
  have hsq : Real.sqrt ((0 + 0 * cfg.dt * BASE_SPEED * 60) ^ 2 +
      (-maxFCD cfg + vy * cfg.dt * BASE_SPEED * 60) ^ 2) =
      maxFCD cfg - vy * cfg.dt * BASE_SPEED * 60 := by
    rw [show (0 : ℝ) + 0 * cfg.dt * BASE_SPEED * 60 = 0 from by ring,
        show -maxFCD cfg + vy * cfg.dt * BASE_SPEED * 60 =
          -(maxFCD cfg - vy * cfg.dt * BASE_SPEED * 60) from by ring,
        show (0 : ℝ) ^ 2 + (-(maxFCD cfg - vy * cfg.dt * BASE_SPEED * 60)) ^ 2 =
          (maxFCD cfg - vy * cfg.dt * BASE_SPEED * 60) ^ 2 from by ring,
        Real.sqrt_sq (by linarith)]
  have hgapArea : Part001.isInGap (atan2
      (-maxFCD cfg + vy * cfg.dt * BASE_SPEED * 60) (0 + 0 * cfg.dt * BASE_SPEED * 60))
      0 cfg.gapSize := by
    rw [show (0 : ℝ) + 0 * cfg.dt * BASE_SPEED * 60 = 0 from by ring,
        atan2_neg_vertical _ (by linarith), hgap]
    exact isInGap_at_center 35 (by norm_num)
  have hdist0ge : maxFCD cfg * 0.98 ≤ Real.sqrt ((0 + 0 * cfg.dt * BASE_SPEED * 60) ^ 2 +
      (-maxFCD cfg + vy * cfg.dt * BASE_SPEED * 60) ^ 2) := by
    rw [hsq]
    nlinarith
  have hdist0m : maxFCD cfg ≤ Real.sqrt ((0 + 0 * cfg.dt * BASE_SPEED * 60) ^ 2 +
      (-maxFCD cfg + vy * cfg.dt * BASE_SPEED * 60) ^ 2) := by
    rw [hsq]
    linarith
  obtain ⟨g, st', hg⟩ : ∃ g st', stepFlag cfg st f = (g, st') := ⟨_, _, rfl⟩
  rw [hg]
  subst hf
  unfold stepFlag at hg
  dsimp only at hg
  split at hg
  · next hskip => simp at hskip
  · next hrun =>
    split at hg
    · next r hB =>
      subst hg
      repeat' split at hB
      all_goals
        first
        | exact Sum.noConfusion hB
        | (injection hB with hB
           have h1g := congrArg Prod.fst hB
           dsimp only at h1g
           rw [← h1g]
           refine ⟨by simp [markExit], by simp [markExit], by simp [markExit],
             by simp [markExit], ?_⟩
           simp only [markExit]
           exact hdistt _ (bisectT_mem _ _ _ _ _).1 (bisectT_mem _ _ _ _ _).2)
    · next x y hB =>
      repeat' split at hB
      all_goals
        first
        | exact Sum.noConfusion hB
        | exact Bool.noConfusion (hen ▸ ‹cfg.gapRotationEnabled = true›)
        | (exfalso
           rename_i hnot
           exact hnot (hgapPoint _ (bisectT_mem _ _ _ _ _).1))
        | (injection hB with hB
           injection hB with hbx hby
           subst hbx
           subst hby)
      all_goals (
        split at hg
        · exact Bool.noConfusion (hen ▸ ‹cfg.gapRotationEnabled = true›)
        · split at hg
          · (injection hg with h1g h2g
             rw [← h1g]
             refine ⟨by simp [markExit], by simp [markExit], by simp [markExit],
               by simp [markExit], ?_⟩
             simp only [markExit]
             exact hdist0m)
          · (next hnot => exact absurd ⟨hgapArea, hdist0ge⟩ hnot))

/-- C2 at a concrete input: flag size 0.09, boundary distance `maxFCD`,
outward speed 0.2, frame delta 16 ms. -/
theorem gap_exit_not_bounce_witness :
    (stepFlag ⟨16, false, 0, 35, 0.09⟩ ⟨0, [], []⟩
      ⟨"AA", 0, -maxFCD ⟨16, false, 0, 35, 0.09⟩, 0, -0.2, false, none, false, false,
        false⟩).1.eliminated = true ∧
    (stepFlag ⟨16, false, 0, 35, 0.09⟩ ⟨0, [], []⟩
      ⟨"AA", 0, -maxFCD ⟨16, false, 0, 35, 0.09⟩, 0, -0.2, false, none, false, false,
        false⟩).1.exiting = true ∧
    (stepFlag ⟨16, false, 0, 35, 0.09⟩ ⟨0, [], []⟩
      ⟨"AA", 0, -maxFCD ⟨16, false, 0, 35, 0.09⟩, 0, -0.2, false, none, false, false,
        false⟩).1.vx = 0 ∧
    (stepFlag ⟨16, false, 0, 35, 0.09⟩ ⟨0, [], []⟩
      ⟨"AA", 0, -maxFCD ⟨16, false, 0, 35, 0.09⟩, 0, -0.2, false, none, false, false,
        false⟩).1.vy = -0.2 ∧
    maxFCD ⟨16, false, 0, 35, 0.09⟩ ≤
      Real.sqrt ((stepFlag ⟨16, false, 0, 35, 0.09⟩ ⟨0, [], []⟩
        ⟨"AA", 0, -maxFCD ⟨16, false, 0, 35, 0.09⟩, 0, -0.2, false, none, false, false,
          false⟩).1.x ^ 2 +
        (stepFlag ⟨16, false, 0, 35, 0.09⟩ ⟨0, [], []⟩
        ⟨"AA", 0, -maxFCD ⟨16, false, 0, 35, 0.09⟩, 0, -0.2, false, none, false, false,
          false⟩).1.y ^ 2) :=
  gap_exit_not_bounce ⟨16, false, 0, 35, 0.09⟩ ⟨0, [], []⟩ "AA" none false (-0.2) _
    rfl rfl rfl (by norm_num) (by norm_num)

/-! ## Fall physics (src/unnamed/part_001, lines 281-385)

Pure rational arithmetic, so this part is embedded over `ℚ` and stays
executable.  The stacked-branch grid layout (lines 314-369, computed from
window sizes) is rendering geometry; the embedding keeps its trigger
condition and collapses the branch to a `stacks` marker. -/

namespace Fall

/-- `GRAVITY` (line 228), acceleration per millisecond squared. -/
def GRAVITY : ℚ := 0.0005

/-- `INITIAL_FALL_VELOCITY` (line 229). -/
def INITIAL_FALL_VELOCITY : ℚ := 0.1

/-- `MAX_FALL_VELOCITY` (line 230). -/
def MAX_FALL_VELOCITY : ℚ := 1.2

/-- `ROTATION_SPEED` (line 231). -/
def ROTATION_SPEED : ℚ := 0.15

/-- `FADE_SPEED` (line 232). -/
def FADE_SPEED : ℚ := 0.0015

/-- The fall-animation fields of a falling, not yet stacked flag.  In every
reachable falling state `fallVelocity`, `fallDriftX` and `fallStartTime` are
set (they are assigned at the exit-to-fall transition, lines 263-274), so the
source's `?? INITIAL_FALL_VELOCITY` and random-direction fallbacks for
`undefined` fields never fire and are not modelled. -/
structure FallState where
  fallY : ℚ
  fallVelocity : ℚ
  fallRotation : ℚ
  fallOpacity : ℚ
  fallDriftX : ℚ
  fallStartTime : ℚ
deriving DecidableEq

/-- Outcome of one fall frame: the flag either reaches the stacking cutoff
`stackBottom - flagSize` (line 314) or keeps falling with updated fields. -/
inductive FallResult where
  | stacks
  | falls (s : FallState)
deriving DecidableEq

/-- One frame of the fall update (lines 290-384): line 291's
`f.fallStartTime || time` treats a zero start time as falsy and falls back
to `time` (making `fallDuration` zero); otherwise the velocity gains
`GRAVITY * (time - fallStartTime)` — gravity times the total elapsed fall
duration, the source's `fallDuration` — capped at `MAX_FALL_VELOCITY`; the
position advances by `fallVelocity * dt + 0.5 * GRAVITY * dt * dt` using the
start-of-frame velocity; rotation, drift (with the ambient
`Math.random() - 0.5` passed in as `rnd`) and opacity follow lines 303-308
and 374-375. -/
def fallStep (time dt stackBottom flagSize rnd : ℚ) (f : FallState) : FallResult :=
  let fallStart := if f.fallStartTime = 0 then time else f.fallStartTime
  let fallDuration := time - fallStart
  let currentVelocity := min (f.fallVelocity + GRAVITY * fallDuration) MAX_FALL_VELOCITY
  let fallDistance := f.fallVelocity * dt + 0.5 * GRAVITY * dt * dt
  let newFallY := f.fallY + fallDistance
  let newRotation := f.fallRotation + ROTATION_SPEED * dt * currentVelocity
  let driftSpeed := 0.02 * currentVelocity
  let driftDirection : ℚ := if 0 < f.fallDriftX then 1 else -1
  let newDriftX := f.fallDriftX + driftSpeed * dt * driftDirection * rnd
  if stackBottom - flagSize ≤ newFallY then FallResult.stacks
  else
    let fadeMultiplier := max 0.3 (1 - currentVelocity / MAX_FALL_VELOCITY * 0.5)
    let newOpacity := max 0.8 (f.fallOpacity - dt * FADE_SPEED * fadeMultiplier)
    FallResult.falls ⟨newFallY, currentVelocity, newRotation, newOpacity, newDriftX,
      f.fallStartTime⟩

end Fall

/-- C7 (amended): for a fall that started at a nonzero timestamp (so
line 291's falsy-zero fallback `f.fallStartTime || time` does not fire),
one frame of the still-falling update advances the stored vertical velocity
by `GRAVITY` times the total elapsed fall duration `time - fallStartTime`
(the increment the code re-adds every frame), capped at
`MAX_FALL_VELOCITY` — not by `GRAVITY · dt` — while the vertical position
does advance by `v·dt + ½·g·dt²` with `v` the velocity at the start of the
frame, as the claim states. -/
theorem fall_step_formula (time dt stackBottom flagSize rnd : ℚ) (f : Fall.FallState)
    (h0 : f.fallStartTime ≠ 0)
    (h : f.fallY + (f.fallVelocity * dt + 0.5 * Fall.GRAVITY * dt * dt) <
      stackBottom - flagSize) :
    Fall.fallStep time dt stackBottom flagSize rnd f = Fall.FallResult.falls
      { fallY := f.fallY + (f.fallVelocity * dt + 0.5 * Fall.GRAVITY * dt * dt),
        fallVelocity := min (f.fallVelocity + Fall.GRAVITY * (time - f.fallStartTime))
          Fall.MAX_FALL_VELOCITY,
        fallRotation := f.fallRotation + Fall.ROTATION_SPEED * dt *
          min (f.fallVelocity + Fall.GRAVITY * (time - f.fallStartTime))
            Fall.MAX_FALL_VELOCITY,
        fallOpacity := max 0.8 (f.fallOpacity - dt * Fall.FADE_SPEED *
          max 0.3 (1 - min (f.fallVelocity + Fall.GRAVITY * (time - f.fallStartTime))
            Fall.MAX_FALL_VELOCITY / Fall.MAX_FALL_VELOCITY * 0.5)),
        fallDriftX := f.fallDriftX + 0.02 *
          min (f.fallVelocity + Fall.GRAVITY * (time - f.fallStartTime))
            Fall.MAX_FALL_VELOCITY * dt *
          (if 0 < f.fallDriftX then 1 else -1) * rnd,
        fallStartTime := f.fallStartTime } := by
  unfold Fall.fallStep
  rw [if_neg h0, if_neg (not_le.mpr (by linarith))]

/-- C7 (amended) at a concrete input: a flag whose fall started at time 16,
stepped at time 48 (32 ms elapsed) with `dt = 16`. -/
theorem fall_step_formula_witness :
    (⟨0, 0.108, 0, 1, 0.001, 16⟩ : Fall.FallState).fallStartTime ≠ 0 ∧
    Fall.fallStep 48 16 10000 36 0 ⟨0, 0.108, 0, 1, 0.001, 16⟩ = Fall.FallResult.falls
      { fallY := 0 + ((0.108 : ℚ) * 16 + 0.5 * Fall.GRAVITY * 16 * 16),
        fallVelocity := min ((0.108 : ℚ) + Fall.GRAVITY * (48 - 16)) Fall.MAX_FALL_VELOCITY,
        fallRotation := 0 + Fall.ROTATION_SPEED * 16 *
          min ((0.108 : ℚ) + Fall.GRAVITY * (48 - 16)) Fall.MAX_FALL_VELOCITY,
        fallOpacity := max 0.8 ((1 : ℚ) - 16 * Fall.FADE_SPEED *
          max 0.3 (1 - min ((0.108 : ℚ) + Fall.GRAVITY * (48 - 16)) Fall.MAX_FALL_VELOCITY /
            Fall.MAX_FALL_VELOCITY * 0.5)),
        fallDriftX := (0.001 : ℚ) + 0.02 *
          min ((0.108 : ℚ) + Fall.GRAVITY * (48 - 16)) Fall.MAX_FALL_VELOCITY * 16 *
          (if (0 : ℚ) < 0.001 then 1 else -1) * 0,
        fallStartTime := 16 } :=
  ⟨by norm_num,
    fall_step_formula 48 16 10000 36 0 ⟨0, 0.108, 0, 1, 0.001, 16⟩
      (by norm_num) (by norm_num [Fall.GRAVITY])⟩

/-- C7 (counterexample): a fall that started at time 16 is stepped at
`time = 48` with `dt = 16` from stored velocity 0.108 (its second frame);
the code's new velocity is `0.108 + GRAVITY·32 = 0.124`, not the claimed
`0.108 + GRAVITY·16 = 0.116` — the stored velocity is advanced by gravity
times the whole elapsed fall duration, not by `g·dt`. -/
theorem fall_velocity_counterexample :
    ∃ s, Fall.fallStep 48 16 10000 36 0 ⟨0, 0.108, 0, 1, 0.001, 16⟩ =
        Fall.FallResult.falls s ∧
      s.fallVelocity = 0.124 ∧
      s.fallVelocity ≠ min ((0.108 : ℚ) + Fall.GRAVITY * 16) Fall.MAX_FALL_VELOCITY := by
  refine ⟨⟨1.792, 0.124, 0.2976, 24431 / 25000, 0.001, 16⟩, ?_, by norm_num,
    by norm_num [Fall.GRAVITY, Fall.MAX_FALL_VELOCITY]⟩
  norm_num [Fall.fallStep, Fall.GRAVITY, Fall.MAX_FALL_VELOCITY, Fall.ROTATION_SPEED,
    Fall.FADE_SPEED, min_def, max_def]

/-! ## Sword-combat game

src/lib/game/GameEngine.ts with src/unnamed/part_004 (collision.ts) and
src/unnamed/part_005 (Player.ts).  The geometry uses `Math.cos`/`Math.sin`,
so players live over `ℝ`; the collision predicates are polymorphic over any
linear ordered field and stay executable at `ℚ`. -/

namespace Combat

/-- One combat player (Player.ts).  The constructor-randomized fields
(`direction`, `swordRotationSpeed`) are plain fields of the embedding;
display-only fields (`countryName`, `flagImage`) and `moveSpeed` (used only
by the ambient random rewandering) are omitted. -/
structure Player where
  id : String
  x : ℝ
  y : ℝ
  radius : ℝ
  direction : ℝ
  life : ℝ
  swordLength : ℝ
  swordDamage : ℝ
  vx : ℝ
  vy : ℝ
  swordRotationSpeed : ℝ
  hitCooldown : ℕ
  hitFlashFrames : ℕ
  prevSwordTipX : ℝ
  prevSwordTipY : ℝ
deriving Inhabited

/-- `Player.isAlive` (Player.ts lines 81-84): life strictly positive. -/
def Player.isAlive (p : Player) : Prop := 0 < p.life

noncomputable instance (p : Player) : Decidable p.isAlive :=
  inferInstanceAs (Decidable (_ < _))

/-- `Player.getSwordTip` (Player.ts lines 86-91). -/
noncomputable def Player.getSwordTip (p : Player) : ℝ × ℝ :=
  (p.x + Real.cos p.direction * p.swordLength,
   p.y + Real.sin p.direction * p.swordLength)

/-- `Player.takeDamage` (Player.ts lines 93-96): life floored at 0. -/
noncomputable def Player.takeDamage (p : Player) (amount : ℝ) : Player :=
  { p with life := max 0 (p.life - amount) }

/-- `Player.update` (Player.ts lines 98-113): store the previous sword tip,
rotate the sword, advance the position, count the hit cooldown down (the
truncated `ℕ` subtraction models the guarded `if (hitCooldown > 0)`
decrement). -/
noncomputable def Player.update (p : Player) (speedFactor : ℝ) : Player :=
  let f := if speedFactor ≤ 0 then 1 else speedFactor
  let prevTip := p.getSwordTip
  { p with prevSwordTipX := prevTip.1, prevSwordTipY := prevTip.2,
           direction := p.direction + p.swordRotationSpeed * f,
           x := p.x + p.vx * f, y := p.y + p.vy * f,
           hitCooldown := p.hitCooldown - 1 }

/-- `Player.clampToArena` (Player.ts lines 121-125). -/
noncomputable def Player.clampToArena (p : Player) (minX minY maxX maxY : ℝ) : Player :=
  { p with x := max (minX + p.radius) (min (maxX - p.radius) p.x),
           y := max (minY + p.radius) (min (maxY - p.radius) p.y) }

/-- `Player.bounceOffWalls` (Player.ts lines 127-134): four sequential
conditional velocity flips. -/
noncomputable def Player.bounceOffWalls (p : Player) (minX minY maxX maxY : ℝ) : Player :=
  let p1 := if p.x ≤ minX + p.radius then { p with vx := |p.vx| } else p
  let p2 := if maxX - p1.radius ≤ p1.x then { p1 with vx := -|p1.vx| } else p1
  let p3 := if p2.y ≤ minY + p2.radius then { p2 with vy := |p2.vy| } else p2
  if maxY - p3.radius ≤ p3.y then { p3 with vy := -|p3.vy| } else p3

/-- `pointInCircle` (collision.ts lines 12-23): squared-distance comparison
(the source's `dx*dx` products written as squares). -/
def pointInCircle {K : Type} [LinearOrderedField K] (px py cx cy radius : K) : Prop :=
  (px - cx) ^ 2 + (py - cy) ^ 2 ≤ radius ^ 2

instance {K : Type} [LinearOrderedField K] (px py cx cy r : K) :
    Decidable (pointInCircle px py cx cy r) :=
  inferInstanceAs (Decidable (_ ≤ _))

/-- `segmentHitsCircle` (collision.ts lines 26-52): clamped-projection
closest-point-on-segment test, with the degenerate zero-length segment
falling back to the point test.  The source's parameter `by` is a reserved
word here, hence `byv`. -/
def segmentHitsCircle {K : Type} [LinearOrderedField K]
    (ax ay bx byv cx cy radius : K) : Prop :=
  let abx := bx - ax
  let aby := byv - ay
  let acx := cx - ax
  let acy := cy - ay
  let abLenSq := abx ^ 2 + aby ^ 2
  if abLenSq = 0 then pointInCircle ax ay cx cy radius
  else
    let t0 := (acx * abx + acy * aby) / abLenSq
    let t := if t0 < 0 then 0 else if 1 < t0 then 1 else t0
    let closestX := ax + abx * t
    let closestY := ay + aby * t
    (closestX - cx) ^ 2 + (closestY - cy) ^ 2 ≤ radius ^ 2

instance {K : Type} [LinearOrderedField K] (ax ay bx byv cx cy r : K) :
    Decidable (segmentHitsCircle ax ay bx byv cx cy r) := by
  unfold segmentHitsCircle
  infer_instance

/-- `swordHitsPlayer` (collision.ts lines 58-75): the early-return guards as
a conjunction (`hitCooldown > 0` returning false is `hitCooldown = 0` over
`ℕ`), then the swept segment test with the current-tip point test as
fallback.  `prevSwordTipX/Y` are always-set fields, so the source's
`?? tip.x` never fires. -/
noncomputable def swordHitsPlayer (attacker target : Player) : Prop :=
  attacker.isAlive ∧ target.isAlive ∧ attacker.id ≠ target.id ∧
  attacker.hitCooldown = 0 ∧
  (segmentHitsCircle attacker.prevSwordTipX attacker.prevSwordTipY
      attacker.getSwordTip.1 attacker.getSwordTip.2 target.x target.y
      (target.radius * 1.05) ∨
    pointInCircle attacker.getSwordTip.1 attacker.getSwordTip.2 target.x target.y
      (target.radius * 1.05))

noncomputable instance (a t : Player) : Decidable (swordHitsPlayer a t) := by
  unfold swordHitsPlayer
  infer_instance

/-- The GameEngine settings the tick pipeline reads (GameEngine.ts fields
`arenaMin/Max`, `damageMultiplier`, `hitCooldownFrames`). -/
structure EngineCfg where
  arenaMinX : ℝ
  arenaMinY : ℝ
  arenaMaxX : ℝ
  arenaMaxY : ℝ
  damageMultiplier : ℝ
  hitCooldownFrames : ℕ

/-- The inner target loop body of `GameEngine.collisionUpdate`
(lines 148-159) for attacker index `i` and target index `j`: skip
self-by-identity and dead targets; on a hit, damage the target, set its
hit-flash and set the attacker's cooldown, all in the current list. -/
noncomputable def collisionInner (cfg : EngineCfg) (i : ℕ) (ps : List Player) (j : ℕ) :
    List Player :=
  match ps.get? i, ps.get? j with
  | some atk, some tgt =>
    if tgt.id = atk.id then ps
    else if ¬ tgt.isAlive then ps
    else if swordHitsPlayer atk tgt then
      (ps.set j { tgt.takeDamage (atk.swordDamage * cfg.damageMultiplier) with
          hitFlashFrames := cfg.hitCooldownFrames }).set i
        { atk with hitCooldown := cfg.hitCooldownFrames }
    else ps
  | _, _ => ps

/-- The outer attacker loop body of `GameEngine.collisionUpdate`
(lines 145-160): a dead attacker is skipped at entry of its iteration. -/
noncomputable def collisionOuter (cfg : EngineCfg) (ps : List Player) (i : ℕ) : List Player :=
  match ps.get? i with
  | some atk =>
    if ¬ atk.isAlive then ps
    else (List.range ps.length).foldl (collisionInner cfg i) ps
  | none => ps

/-- `GameEngine.collisionUpdate` (lines 142-161): every ordered
attacker/target pair in list order, mutations visible to later pairs. -/
noncomputable def collisionUpdate (cfg : EngineCfg) (ps : List Player) : List Player :=
  (List.range ps.length).foldl (collisionOuter cfg) ps

/-- `GameEngine.physicsUpdate` (lines 110-139): skip dead players; update,
clamp and bounce each alive player and count its hit-flash down; the
late-game speed factor is 20 once at most 5 players are alive.  The
`frameCount` bump is bookkeeping for the ambient random rewandering and is
not modelled. -/
noncomputable def physicsUpdate (cfg : EngineCfg) (ps : List Player) : List Player :=
  let aliveCount := (ps.filter fun p => decide p.isAlive).length
  let speedFactor : ℝ := if aliveCount ≤ 5 then 20 else 1
  ps.map fun p =>
    if ¬ p.isAlive then p
    else
      let p1 := ((p.update speedFactor).clampToArena cfg.arenaMinX cfg.arenaMinY
        cfg.arenaMaxX cfg.arenaMaxY).bounceOffWalls cfg.arenaMinX cfg.arenaMinY
        cfg.arenaMaxX cfg.arenaMaxY
      { p1 with hitFlashFrames := p1.hitFlashFrames - 1 }

/-- `GameEngine.updateWinner` (lines 164-169): record the sole alive player,
otherwise keep the stored winner. -/
noncomputable def updateWinner (ps : List Player) (winner : Option String) : Option String :=
  let alive := ps.filter fun p => decide p.isAlive
  if alive.length = 1 then some alive.headI.id else winner

/-- `GameEngine.tick` (lines 172-176): physics, then collision, then the
winner check. -/
noncomputable def tick (cfg : EngineCfg) (ps : List Player) (winner : Option String) :
    List Player × Option String :=
  let ps1 := physicsUpdate cfg ps
  let ps2 := collisionUpdate cfg ps1
  (ps2, updateWinner ps2 winner)

end Combat

/-- C9: `takeDamage` sets life to `max 0 (life - d)` for every damage amount,
so life is never negative after any damage application; `isAlive` holds iff
life is strictly positive, and after `takeDamage d` the player is alive iff
`d < life` — `isAlive` flips to false exactly when life first reaches 0,
never while it is still positive. -/
theorem damage_floor_isAlive (p : Combat.Player) (d : ℝ) :
    (p.takeDamage d).life = max 0 (p.life - d) ∧
    0 ≤ (p.takeDamage d).life ∧
    (p.isAlive ↔ 0 < p.life) ∧
    ((p.takeDamage d).isAlive ↔ d < p.life) := by
  refine ⟨rfl, le_max_left _ _, Iff.rfl, ?_⟩
  unfold Combat.Player.takeDamage Combat.Player.isAlive
  dsimp only
  rw [lt_max_iff]
  constructor
  · rintro (h | h)
    · exact absurd h (lt_irrefl 0)
    · linarith
  · intro h
    exact Or.inr (by linarith)

/-- C10: `segmentHitsCircle` is true iff some point of the closed segment —
parametrized by `t ∈ [0, 1]`, the degenerate zero-length segment collapsing
to its first endpoint — is within distance `r` of the circle center: the
clamped projection parameter minimizes the distance over the segment.  In
particular a segment that passes through the circle registers a hit even
when both endpoints are outside, so a fast weapon tip cannot tunnel through
a target between frames. -/
theorem segmentHitsCircle_iff (ax ay bx byv cx cy r : ℝ) (hr : 0 ≤ r) :
    Combat.segmentHitsCircle ax ay bx byv cx cy r ↔
      ∃ t : ℝ, 0 ≤ t ∧ t ≤ 1 ∧
        Real.sqrt ((ax + (bx - ax) * t - cx) ^ 2 + (ay + (byv - ay) * t - cy) ^ 2) ≤ r := by
  have hsq : ∀ u : ℝ, Real.sqrt u ≤ r ↔ u ≤ r ^ 2 := fun u =>
    ⟨fun h => (Real.sqrt_le_iff.mp h).2, fun h => Real.sqrt_le_iff.mpr ⟨hr, h⟩⟩
  by_cases hab : (bx - ax) ^ 2 + (byv - ay) ^ 2 = 0
  · have hbx : bx - ax = 0 := by nlinarith [sq_nonneg (bx - ax), sq_nonneg (byv - ay)]
    have hby : byv - ay = 0 := by nlinarith [sq_nonneg (bx - ax), sq_nonneg (byv - ay)]
    have hdef : Combat.segmentHitsCircle ax ay bx byv cx cy r ↔
        Combat.pointInCircle ax ay cx cy r := by
      simp only [Combat.segmentHitsCircle]
      rw [if_pos hab]
    rw [hdef]
    unfold Combat.pointInCircle
    constructor
    · intro h
      refine ⟨0, le_refl 0, by norm_num, (hsq _).mpr ?_⟩
      have e : (ax + (bx - ax) * 0 - cx) ^ 2 + (ay + (byv - ay) * 0 - cy) ^ 2 =
          (ax - cx) ^ 2 + (ay - cy) ^ 2 := by ring
      rw [e]
      exact h
    · rintro ⟨t, ht0, ht1, hs⟩
      have h2 := (hsq _).mp hs
      have e : (ax + (bx - ax) * t - cx) ^ 2 + (ay + (byv - ay) * t - cy) ^ 2 =
          (ax - cx) ^ 2 + (ay - cy) ^ 2 := by rw [hbx, hby]; ring
      rw [e] at h2
      exact h2
  · have habpos : 0 < (bx - ax) ^ 2 + (byv - ay) ^ 2 :=
      lt_of_le_of_ne (by positivity) (Ne.symm hab)
    set L := (bx - ax) ^ 2 + (byv - ay) ^ 2 with hL
    set dot := (cx - ax) * (bx - ax) + (cy - ay) * (byv - ay) with hdot
    set t0 := dot / L with ht0def
    set tc : ℝ := if t0 < 0 then 0 else if 1 < t0 then 1 else t0 with htc
    have hdotL : t0 * L = dot := div_mul_cancel₀ _ (ne_of_gt habpos)
    have hdef : Combat.segmentHitsCircle ax ay bx byv cx cy r ↔
        (ax + (bx - ax) * tc - cx) ^ 2 + (ay + (byv - ay) * tc - cy) ^ 2 ≤ r ^ 2 := by
      simp only [Combat.segmentHitsCircle]
      rw [if_neg hab]
    have htcb : 0 ≤ tc ∧ tc ≤ 1 := by
      rw [htc]
      split_ifs with h1 h2
      · exact ⟨le_refl 0, by norm_num⟩
      · exact ⟨by norm_num, le_refl 1⟩
      · exact ⟨not_lt.mp h1, not_lt.mp h2⟩
    have hmin : ∀ t : ℝ, 0 ≤ t → t ≤ 1 →
        (ax + (bx - ax) * tc - cx) ^ 2 + (ay + (byv - ay) * tc - cy) ^ 2 ≤
        (ax + (bx - ax) * t - cx) ^ 2 + (ay + (byv - ay) * t - cy) ^ 2 := by
      intro t ht0 ht1
      rw [htc]
      split_ifs with h1 h2
      · have hdotneg : dot < 0 := by nlinarith [hdotL]
        have key : (ax + (bx - ax) * t - cx) ^ 2 + (ay + (byv - ay) * t - cy) ^ 2 -
            ((ax + (bx - ax) * 0 - cx) ^ 2 + (ay + (byv - ay) * 0 - cy) ^ 2) =
            L * t ^ 2 + 2 * (t * -dot) := by
          rw [hL, hdot]
          ring
        have k1 : 0 ≤ L * t ^ 2 := mul_nonneg habpos.le (sq_nonneg t)
        have k2 : 0 ≤ t * -dot := mul_nonneg ht0 (by linarith)
        linarith
      · have hdotbig : L < dot := by nlinarith [hdotL]
        have key : (ax + (bx - ax) * t - cx) ^ 2 + (ay + (byv - ay) * t - cy) ^ 2 -
            ((ax + (bx - ax) * 1 - cx) ^ 2 + (ay + (byv - ay) * 1 - cy) ^ 2) =
            (1 - t) * (2 * dot - L * (t + 1)) := by
          rw [hL, hdot]
          ring
        have hb : 0 ≤ 2 * dot - L * (t + 1) := by
          have := mul_le_mul_of_nonneg_left (show t + 1 ≤ 2 by linarith) habpos.le
          linarith
        have k1 : 0 ≤ (1 - t) * (2 * dot - L * (t + 1)) :=
          mul_nonneg (by linarith) hb
        linarith
      · have key : (ax + (bx - ax) * t - cx) ^ 2 + (ay + (byv - ay) * t - cy) ^ 2 -
            ((ax + (bx - ax) * t0 - cx) ^ 2 + (ay + (byv - ay) * t0 - cy) ^ 2) =
            L * (t - t0) ^ 2 + 2 * (t - t0) * (t0 * L - dot) := by
          rw [hL, hdot]
          ring
        have k1 : 0 ≤ L * (t - t0) ^ 2 := mul_nonneg habpos.le (sq_nonneg (t - t0))
        rw [hdotL] at key
        linarith
    rw [hdef]
    constructor
    · intro h
      exact ⟨tc, htcb.1, htcb.2, (hsq _).mpr h⟩
    · rintro ⟨t, ht0', ht1', hs⟩
      exact le_trans (hmin t ht0' ht1') ((hsq _).mp hs)

/-- C10 at a concrete input: the tunneling case — a horizontal segment from
`(-100, 0)` to `(100, 0)` through a circle of radius 10 at the origin hits
it although neither endpoint lies inside the circle. -/
theorem segmentHitsCircle_iff_witness :
    Combat.segmentHitsCircle (-100 : ℝ) 0 100 0 0 0 10 ∧
    ¬ Combat.pointInCircle (-100 : ℝ) 0 0 0 10 ∧
    ¬ Combat.pointInCircle (100 : ℝ) 0 0 0 10 := by
  refine ⟨(segmentHitsCircle_iff (-100) 0 100 0 0 0 10 (by norm_num)).mpr
    ⟨1 / 2, by norm_num, by norm_num, ?_⟩, ?_, ?_⟩
  · have e : ((-100 : ℝ) + (100 - -100) * (1 / 2) - 0) ^ 2 + (0 + (0 - 0) * (1 / 2) - 0) ^ 2
        = 0 := by norm_num
    rw [e, Real.sqrt_zero]
    norm_num
  · unfold Combat.pointInCircle
    norm_num
  · unfold Combat.pointInCircle
    norm_num

theorem collisionInner_cases (cfg : Combat.EngineCfg) (i : ℕ) (ps : List Combat.Player)
    (j : ℕ) :
    Combat.collisionInner cfg i ps j = ps ∨
    (∃ atk tgt, ps.get? i = some atk ∧ ps.get? j = some tgt ∧
      Combat.swordHitsPlayer atk tgt ∧
      Combat.collisionInner cfg i ps j =
        (ps.set j { tgt.takeDamage (atk.swordDamage * cfg.damageMultiplier) with
            hitFlashFrames := cfg.hitCooldownFrames }).set i
          { atk with hitCooldown := cfg.hitCooldownFrames }) := by
  unfold Combat.collisionInner
  rcases hgi : ps.get? i with _ | atk
  · exact Or.inl rfl
  · rcases hgj : ps.get? j with _ | tgt
    · exact Or.inl rfl
    · dsimp only
      split_ifs with h1 h2 h3
      · exact Or.inl rfl
      · exact Or.inr ⟨atk, tgt, rfl, rfl, h3, rfl⟩
      · exact Or.inl rfl
      · exact Or.inl rfl

/-- The concrete C8 scenario: an attacker whose sword tip rests on the
target's center (direction 0, tip at (150,100) = target position),
swordDamage 10, cooldown 0. -/
def wAtk : Combat.Player :=
  { id := "A", x := 100, y := 100, radius := 10, direction := 0, life := 100,
    swordLength := 50, swordDamage := 10, vx := 0, vy := 0,
    swordRotationSpeed := 0, hitCooldown := 0, hitFlashFrames := 0,
    prevSwordTipX := 150, prevSwordTipY := 100 }

/-- The concrete C8 target: life 100, radius 10, at (150,100). -/
def wTgt : Combat.Player :=
  { id := "B", x := 150, y := 100, radius := 10, direction := 0, life := 100,
    swordLength := 50, swordDamage := 10, vx := 0, vy := 0,
    swordRotationSpeed := 0, hitCooldown := 0, hitFlashFrames := 0,
    prevSwordTipX := 200, prevSwordTipY := 100 }

/-- The concrete C8 attacker one tick after its hit: cooldown still 10. -/
def wCooled : Combat.Player := { wAtk with hitCooldown := 10 }

/-- The concrete C8 engine settings: damage multiplier 1, 10-frame cooldown. -/
def wCfg : Combat.EngineCfg :=
  { arenaMinX := 0, arenaMinY := 0, arenaMaxX := 1000, arenaMaxY := 1000,
    damageMultiplier := 1, hitCooldownFrames := 10 }

/-- C8: in the combat game, when an attacker with zero hit cooldown lands a
sword hit on an alive target, `collisionUpdate` on the two-player list
leaves the target with life `max 0 (life - swordDamage * damageMultiplier)`
and sets the attacker's cooldown to the configured window; and while an
attacker's cooldown is still positive it deals no damage — the target's
life is unchanged by `collisionUpdate`. -/
theorem sword_hit_applies_damage_once (cfg : Combat.EngineCfg)
    (A B A2nd B2nd : Combat.Player)
    (hhit : Combat.swordHitsPlayer A B) (hcd : 0 < A2nd.hitCooldown) :
    (∃ A2 B2, Combat.collisionUpdate cfg [A, B] = [A2, B2] ∧
      B2.life = max 0 (B.life - A.swordDamage * cfg.damageMultiplier) ∧
      A2.hitCooldown = cfg.hitCooldownFrames) ∧
    (∃ A2 B2, Combat.collisionUpdate cfg [A2nd, B2nd] = [A2, B2] ∧
      B2.life = B2nd.life) := by
  have hself : ∀ (ps : List Combat.Player) (i : ℕ),
      Combat.collisionInner cfg i ps i = ps := by
    intro ps i
    rcases collisionInner_cases cfg i ps i with h | ⟨atk, tgt, hgi, hgj, hhit2, h⟩
    · exact h
    · rw [hgi] at hgj
      obtain rfl := (Option.some.injEq _ _).mp hgj
      exact absurd rfl hhit2.2.2.1
  constructor
  · obtain ⟨hAalive, hBalive, hAB, hcd0, hgeo⟩ := hhit
    have e1b : Combat.collisionInner cfg 0 [A, B] 1 =
        [{ A with hitCooldown := cfg.hitCooldownFrames },
         { B.takeDamage (A.swordDamage * cfg.damageMultiplier) with
            hitFlashFrames := cfg.hitCooldownFrames }] := by
      unfold Combat.collisionInner
      simp only [List.get?_cons_zero, List.get?_cons_succ]
      rw [if_neg (fun h => hAB h.symm), if_neg (not_not_intro hBalive),
        if_pos ⟨hAalive, hBalive, hAB, hcd0, hgeo⟩]
      rfl
    have e1 : Combat.collisionOuter cfg [A, B] 0 =
        [{ A with hitCooldown := cfg.hitCooldownFrames },
         { B.takeDamage (A.swordDamage * cfg.damageMultiplier) with
            hitFlashFrames := cfg.hitCooldownFrames }] := by
      unfold Combat.collisionOuter
      simp only [List.get?_cons_zero]
      rw [if_neg (not_not_intro hAalive)]
      have hr : List.range ([A, B] : List Combat.Player).length = [0, 1] := rfl
      rw [hr]
      simp only [List.foldl_cons, List.foldl_nil]
      rw [hself [A, B] 0, e1b]
    set A1 : Combat.Player := { A with hitCooldown := cfg.hitCooldownFrames } with hA1
    set B1 : Combat.Player := { B.takeDamage (A.swordDamage * cfg.damageMultiplier) with
      hitFlashFrames := cfg.hitCooldownFrames } with hB1
    have e2 : ∃ A2 B2, Combat.collisionOuter cfg [A1, B1] 1 = [A2, B2] ∧
        B2.life = B1.life ∧ A2.hitCooldown = A1.hitCooldown := by
      unfold Combat.collisionOuter
      simp only [List.get?_cons_zero, List.get?_cons_succ]
      by_cases hB1alive : B1.isAlive
      · rw [if_neg (not_not_intro hB1alive)]
        have hr : List.range ([A1, B1] : List Combat.Player).length = [0, 1] := rfl
        rw [hr]
        simp only [List.foldl_cons, List.foldl_nil]
        rcases collisionInner_cases cfg 1 [A1, B1] 0 with h0 | ⟨atk, tgt, hgi, hgj, hhit2, h0⟩
        · rw [h0, hself [A1, B1] 1]
          exact ⟨A1, B1, rfl, rfl, rfl⟩
        · simp only [List.get?_cons_zero, List.get?_cons_succ, Option.some.injEq] at hgi hgj
          subst hgi
          subst hgj
          rw [h0]
          rw [show (([A1, B1].set 0
              { A1.takeDamage (B1.swordDamage * cfg.damageMultiplier) with
                hitFlashFrames := cfg.hitCooldownFrames }).set 1
              { B1 with hitCooldown := cfg.hitCooldownFrames }) =
              [{ A1.takeDamage (B1.swordDamage * cfg.damageMultiplier) with
                  hitFlashFrames := cfg.hitCooldownFrames },
               { B1 with hitCooldown := cfg.hitCooldownFrames }] from rfl]
          rw [hself _ 1]
          exact ⟨_, _, rfl, rfl, rfl⟩
      · rw [if_pos hB1alive]
        exact ⟨A1, B1, rfl, rfl, rfl⟩
    obtain ⟨A2, B2, he2, hB2, hA2⟩ := e2
    refine ⟨A2, B2, ?_, by rw [hB2]; rfl, by rw [hA2]⟩
    show (List.range ([A, B] : List Combat.Player).length).foldl
      (Combat.collisionOuter cfg) [A, B] = [A2, B2]
    have hr : List.range ([A, B] : List Combat.Player).length = [0, 1] := rfl
    rw [hr]
    simp only [List.foldl_cons, List.foldl_nil]
    rw [e1, he2]
  · have hnohit : ∀ tgt, ¬ Combat.swordHitsPlayer A2nd tgt := by
      intro tgt h
      exact absurd h.2.2.2.1 (Nat.pos_iff_ne_zero.mp hcd)
    have e1 : Combat.collisionOuter cfg [A2nd, B2nd] 0 = [A2nd, B2nd] := by
      unfold Combat.collisionOuter
      simp only [List.get?_cons_zero]
      by_cases hAalive : A2nd.isAlive
      · rw [if_neg (not_not_intro hAalive)]
        have hr : List.range ([A2nd, B2nd] : List Combat.Player).length = [0, 1] := rfl
        rw [hr]
        simp only [List.foldl_cons, List.foldl_nil]
        rw [hself [A2nd, B2nd] 0]
        rcases collisionInner_cases cfg 0 [A2nd, B2nd] 1 with
          h1 | ⟨atk, tgt, hgi, hgj, hhit2, h1⟩
        · exact h1
        · simp only [List.get?_cons_zero, List.get?_cons_succ, Option.some.injEq] at hgi hgj
          subst hgi
          subst hgj
          exact absurd hhit2 (hnohit _)
      · rw [if_pos hAalive]
    have e2 : ∃ A2 B2, Combat.collisionOuter cfg [A2nd, B2nd] 1 = [A2, B2] ∧
        B2.life = B2nd.life := by
      unfold Combat.collisionOuter
      simp only [List.get?_cons_zero, List.get?_cons_succ]
      by_cases hBalive : B2nd.isAlive
      · rw [if_neg (not_not_intro hBalive)]
        have hr : List.range ([A2nd, B2nd] : List Combat.Player).length = [0, 1] := rfl
        rw [hr]
        simp only [List.foldl_cons, List.foldl_nil]
        rcases collisionInner_cases cfg 1 [A2nd, B2nd] 0 with
          h0 | ⟨atk, tgt, hgi, hgj, hhit2, h0⟩
        · rw [h0, hself [A2nd, B2nd] 1]
          exact ⟨A2nd, B2nd, rfl, rfl⟩
        · simp only [List.get?_cons_zero, List.get?_cons_succ, Option.some.injEq] at hgi hgj
          subst hgi
          subst hgj
          rw [h0]
          rw [show (([A2nd, B2nd].set 0
              { A2nd.takeDamage (B2nd.swordDamage * cfg.damageMultiplier) with
                hitFlashFrames := cfg.hitCooldownFrames }).set 1
              { B2nd with hitCooldown := cfg.hitCooldownFrames }) =
              [{ A2nd.takeDamage (B2nd.swordDamage * cfg.damageMultiplier) with
                  hitFlashFrames := cfg.hitCooldownFrames },
               { B2nd with hitCooldown := cfg.hitCooldownFrames }] from rfl]
          rw [hself _ 1]
          exact ⟨_, _, rfl, rfl⟩
      · rw [if_pos hBalive]
        exact ⟨A2nd, B2nd, rfl, rfl⟩
    obtain ⟨A2, B2, he2, hB2⟩ := e2
    refine ⟨A2, B2, ?_, hB2⟩
    show (List.range ([A2nd, B2nd] : List Combat.Player).length).foldl
      (Combat.collisionOuter cfg) [A2nd, B2nd] = [A2, B2]
    have hr : List.range ([A2nd, B2nd] : List Combat.Player).length = [0, 1] := rfl
    rw [hr]
    simp only [List.foldl_cons, List.foldl_nil]
    rw [e1, he2]

/-- The concrete C8 attack is a hit: the sword tip lies on the target's
center, so the fallback point test fires. -/
theorem wAtk_hits_wTgt : Combat.swordHitsPlayer wAtk wTgt := by
  refine ⟨?_, ?_, ?_, rfl, Or.inr ?_⟩
  · show (0 : ℝ) < wAtk.life
    norm_num [wAtk]
  · show (0 : ℝ) < wTgt.life
    norm_num [wTgt]
  · show wAtk.id ≠ wTgt.id
    simp [wAtk, wTgt]
  · show Combat.pointInCircle (Combat.Player.getSwordTip wAtk).1
      (Combat.Player.getSwordTip wAtk).2 wTgt.x wTgt.y (wTgt.radius * 1.05)
    unfold Combat.pointInCircle Combat.Player.getSwordTip
    norm_num [wAtk, wTgt, Real.cos_zero, Real.sin_zero]

theorem sword_hit_applies_damage_once_witness :
    Combat.swordHitsPlayer wAtk wTgt ∧ 0 < wCooled.hitCooldown ∧
    ((∃ A2 B2, Combat.collisionUpdate wCfg [wAtk, wTgt] = [A2, B2] ∧
        B2.life = max 0 (wTgt.life - wAtk.swordDamage * wCfg.damageMultiplier) ∧
        A2.hitCooldown = wCfg.hitCooldownFrames) ∧
     (∃ A2 B2, Combat.collisionUpdate wCfg [wCooled, wTgt] = [A2, B2] ∧
        B2.life = wTgt.life)) :=
  ⟨wAtk_hits_wTgt, by norm_num [wCooled],
    sword_hit_applies_damage_once wCfg wAtk wTgt wCooled wTgt
      wAtk_hits_wTgt (by norm_num [wCooled])⟩

end RandomFlag
